import Mathlib

/-!
Verification development for the `vision` bytecode VM (crate `vm`):
a shallow embedding, in Lean 4, of the runtime value representation
(`value.rs`), the open-addressing hash table (`table.rs`), the heap object
model and string interning (`object.rs`), and the call-frame execution
engine (`vm.rs`), together with the compiler's jump-patching helpers
(`parser.rs`) and the chunk representation (`chunk.rs`).

Machine doubles (`f64`) are abstracted by a type `α` together with a
`NumOps α` record of its arithmetic and comparison operations; concrete
executions instantiate `α := Int`, which agrees with IEEE-754 double
arithmetic on the small integers those executions compute with.
Raw heap pointers are modelled as indices into an allocation list
(`heap : List (Obj α)`); pointer identity is index equality, matching the
pointer-identity semantics of `Object` equality in `value.rs`.
Rust panics (out-of-bounds indexing, unwrap of `None`, usize underflow)
are modelled by `Option`-valued functions returning `none`.
-/

set_option autoImplicit false

namespace Vision

universe u

/-- Abstraction of the `f64` operations used by the VM (`value.rs` stores
numbers as `f64`; the dispatch logic never inspects their bits, it only
applies these operations). `beq` models `f64::eq` in `PartialEq for Value`. -/
structure NumOps (α : Type) where
  add : α → α → α
  sub : α → α → α
  mul : α → α → α
  div : α → α → α
  neg : α → α
  beq : α → α → Bool
  lt : α → α → Bool
  gt : α → α → Bool

/-- `Value` from `value.rs`: tagged union of nil, bool, number (`f64`,
abstracted to `α`) and object pointer (heap index). -/
inductive Value (α : Type) where
  | nil : Value α
  | bool (b : Bool) : Value α
  | number (n : α) : Value α
  | object (id : Nat) : Value α
deriving DecidableEq, Repr

/-- `Value::is_nil`. -/
def Value.isNil {α : Type} : Value α → Bool
  | .nil => true
  | _ => false

/-- `Value::is_bool`. -/
def Value.isBool {α : Type} : Value α → Bool
  | .bool _ => true
  | _ => false

/-- `Value::is_number`. -/
def Value.isNumber {α : Type} : Value α → Bool
  | .number _ => true
  | _ => false

/-- `Value::is_obj`. -/
def Value.isObj {α : Type} : Value α → Bool
  | .object _ => true
  | _ => false

/-- `Value::is_falsey`: `self.is_nil() || (self.is_bool() && !self.as_bool())`. -/
def Value.isFalsey {α : Type} : Value α → Bool
  | .nil => true
  | .bool b => !b
  | _ => false

/-- `PartialEq for Value` (`value.rs` lines 277-289): tags must match;
numbers compare with `f64::eq` (abstracted as `nm.beq`), objects by
pointer identity (heap-index equality). -/
def valueEq {α : Type} (nm : NumOps α) : Value α → Value α → Bool
  | .nil, .nil => true
  | .bool a, .bool b => a == b
  | .number a, .number b => nm.beq a b
  | .object a, .object b => a == b
  | _, _ => false

/-! ### Table (`table.rs`)

Keys are `RawObject` pointers to `StringObject`s, modelled as heap indices
compared by identity; `find_entry_slot` dereferences the key to read its
stored hash, modelled by a parameter `hashOf : Nat → Option Nat` (`none`
models dereferencing a pointer that is not a string object, a panic/UB).
-/

/-- `Entry` from `table.rs`. A true-empty slot is `⟨none, nil⟩`, a
tombstone is `⟨none, v⟩` with `v` non-nil (`delete` writes `bool false`). -/
structure Entry (α : Type) where
  key : Option Nat
  value : Value α
deriving DecidableEq, Repr

/-- `Table` from `table.rs`. The code maintains `entries.length = capacity`
(`adjust_capacity` builds a vector of exactly `new_capacity` entries). -/
structure Table (α : Type) where
  entries : List (Entry α)
  count : Nat
  capacity : Nat
deriving DecidableEq, Repr

/-- `Table::new`. -/
def Table.new {α : Type} : Table α := ⟨[], 0, 0⟩

/-- The loop body of `find_entry_slot` (`table.rs` lines 32-52), with
explicit fuel. The Rust loop is unbounded; one linear-probe pass of
`capacity` steps visits every slot, so if `capacity` iterations do not
return, no number of iterations ever does — callers pass `capacity` as
fuel and `none` means the Rust loop never terminates (or indexed out of
bounds, impossible while `entries.length = capacity`). -/
def findEntrySlotAux {α : Type} (entries : List (Entry α)) (capacity key : Nat) :
    Nat → Option Nat → Nat → Option Nat
  | _, _, 0 => none
  | index, tombstone, fuel + 1 =>
    match entries.get? index with
    | none => none
    | some e =>
      match e.key with
      | none =>
        if e.value.isNil then
          some (match tombstone with | some t => t | none => index)
        else
          findEntrySlotAux entries capacity key ((index + 1) % capacity)
            (match tombstone with | some t => some t | none => some index) fuel
      | some k =>
        if k = key then some index
        else findEntrySlotAux entries capacity key ((index + 1) % capacity) tombstone fuel

/-- `find_entry_slot` (`table.rs` lines 26-53): start at `hash % capacity`,
linear scan; returns the matching slot, or the first tombstone if one was
seen before the first true-empty slot, else that true-empty slot.
`capacity = 0` would be a division by zero in Rust (panic). -/
def findEntrySlot {α : Type} (hashOf : Nat → Option Nat) (entries : List (Entry α))
    (capacity key : Nat) : Option Nat :=
  if capacity = 0 then none
  else
    match hashOf key with
    | none => none
    | some h => findEntrySlotAux entries capacity key (h % capacity) none capacity

/-- `adjust_capacity` (`table.rs` lines 138-165): fresh array of
`newCap` empty entries, re-insert every keyed entry (dropping tombstones),
recounting `count` from zero. The Rust `for _ in 0..self.capacity`
around `old_entries.drain(..)` drains everything on its first pass
(and does nothing when `capacity = 0`, where `entries` is empty anyway),
so a single pass is equivalent. -/
def adjustCapacity {α : Type} (hashOf : Nat → Option Nat) (t : Table α) (newCap : Nat) :
    Option (Table α) :=
  match t.entries.foldlM
      (fun (acc : List (Entry α) × Nat) e =>
        match e.key with
        | none => some acc
        | some k =>
          match findEntrySlot hashOf acc.1 newCap k with
          | none => none
          | some dest => some (acc.1.set dest e, acc.2 + 1))
      (List.replicate newCap (⟨none, Value.nil⟩ : Entry α), 0) with
  | none => none
  | some acc => some ⟨acc.1, acc.2, newCap⟩

/-- `Table::set` (`table.rs` lines 64-87). The load-factor test
`(count + 1) as f64 > capacity as f64 * 0.75` is exact for these integer
magnitudes and equals `4 * (count + 1) > 3 * capacity`. Growth doubles the
capacity with a minimum of 8. `count` is incremented only when a
true-empty slot (not a tombstone) is consumed. -/
def Table.set {α : Type} (hashOf : Nat → Option Nat) (t : Table α) (key : Nat)
    (value : Value α) : Option (Bool × Table α) :=
  match (if 4 * (t.count + 1) > 3 * t.capacity then
          adjustCapacity hashOf t (if t.capacity < 8 then 8 else t.capacity * 2)
         else some t) with
  | none => none
  | some t =>
    match findEntrySlot hashOf t.entries t.capacity key with
    | none => none
    | some slot =>
      match t.entries.get? slot with
      | none => none
      | some entry =>
        let isNew := entry.key.isNone
        some (isNew,
          ⟨t.entries.set slot ⟨some key, value⟩,
           if isNew && entry.value.isNil then t.count + 1 else t.count,
           t.capacity⟩)

/-- `Table::get` (`table.rs` lines 89-103). Outer `none` models a
non-terminating probe loop; inner `none` is the function's `None` result. -/
def Table.get {α : Type} (hashOf : Nat → Option Nat) (t : Table α) (key : Nat) :
    Option (Option (Value α)) :=
  if t.count = 0 then some none
  else
    match findEntrySlot hashOf t.entries t.capacity key with
    | none => none
    | some slot =>
      match t.entries.get? slot with
      | none => none
      | some e => if e.key.isNone then some none else some (some e.value)

/-- `Table::delete` (`table.rs` lines 105-125): places a tombstone
`⟨none, bool false⟩` and — unlike the clox scheme the rest of the file
follows — decrements `count`. -/
def Table.delete {α : Type} (hashOf : Nat → Option Nat) (t : Table α) (key : Nat) :
    Option (Bool × Table α) :=
  if t.count = 0 then some (false, t)
  else
    match findEntrySlot hashOf t.entries t.capacity key with
    | none => none
    | some slot =>
      match t.entries.get? slot with
      | none => none
      | some e =>
        if e.key.isNone then some (false, t)
        else some (true,
          ⟨t.entries.set slot ⟨none, Value.bool false⟩, t.count - 1, t.capacity⟩)

/-- The loop of `find_string` (`table.rs` lines 173-191), fueled like
`findEntrySlotAux`. `strOf k` reads the `chars`/`hash` fields of the
string object a key points at. -/
def findStringAux {α : Type} (strOf : Nat → Option (String × Nat))
    (entries : List (Entry α)) (capacity : Nat) (buffer : String) (hash : Nat) :
    Nat → Nat → Option (Option Nat)
  | _, 0 => none
  | index, fuel + 1 =>
    match entries.get? index with
    | none => none
    | some e =>
      match e.key with
      | some k =>
        match strOf k with
        | none => none
        | some (chars, h) =>
          if h = hash then
            if chars = buffer then some (some k)
            else findStringAux strOf entries capacity buffer hash ((index + 1) % capacity) fuel
          else findStringAux strOf entries capacity buffer hash ((index + 1) % capacity) fuel
      | none =>
        if e.value.isNil then some none
        else findStringAux strOf entries capacity buffer hash ((index + 1) % capacity) fuel

/-- `Table::find_string` (`table.rs` lines 167-192): content-based lookup
used by the string constructors for interning. -/
def Table.findString {α : Type} (strOf : Nat → Option (String × Nat)) (t : Table α)
    (buffer : String) (hash : Nat) : Option (Option Nat) :=
  if t.count = 0 then some none
  else if t.capacity = 0 then none
  else findStringAux strOf t.entries t.capacity buffer hash (hash % t.capacity) t.capacity

/-! ### Heap objects and string interning (`object.rs`)

Heap pointers are indices into an allocation list; allocation appends at
the end (`Box::into_raw` yields a fresh address; the intrusive `next`
chain only exists for a never-implemented sweep and carries no semantics,
so it is not modelled). -/

/-- One step of `hash_string` (`object.rs` lines 80-89): FNV-1a over the
string's chars, with `usize` (64-bit) wrapping multiplication. -/
def hashStep (h : Nat) (c : Char) : Nat := (Nat.xor h c.toNat * 16777619) % 2 ^ 64

/-- `hash_string` (`object.rs` lines 80-89). `string.chars()` iterates
Unicode scalar values, i.e. the `Char`s of the Lean string. -/
def hashString (s : String) : Nat := s.data.foldl hashStep 2166136261

/-- `Chunk` (`chunk.rs`): code bytes, parallel line table, constant pool. -/
structure Chunk (α : Type) where
  code : List Nat
  lines : List Nat
  constants : List (Value α)

/-- The payload of `FunctionObject` (`object.rs` lines 41-47); `name` is a
pointer to a `StringObject` (heap index). -/
structure FuncData (α : Type) where
  arity : Nat
  chunk : Chunk α
  upvalueCount : Nat
  name : Option Nat

/-- The heap object kinds (`object.rs`): `StringObject` (its `length`
field always equals the byte length of `chars` and is read by no VM
operation, so it is not stored), `FunctionObject`, `NativeObject` (the
host function receives the argument count and a view of the argument
values), `ClosureObject`, and `UpValueObject` as used by `vm.rs` —
a `location` value, a `closed` value and a `next` link for the open list
(the variant of `object.rs` with these fields is not present under `src/`;
the fields and their uses are exactly those of `vm.rs` lines 359-404 and
521-556, with `closed` initially nil). -/
inductive Obj (α : Type) where
  | str (chars : String) (hash : Nat) : Obj α
  | func (fd : FuncData α) : Obj α
  | native (fn : Nat → List (Value α) → Value α) : Obj α
  | closure (funcId : Nat) (upvalues : List (Option Nat)) (upvalueCount : Nat) : Obj α
  | upval (location : Value α) (closed : Value α) (next : Option Nat) : Obj α

/-- Dereference a key pointer to the `chars` and `hash` fields of a
`StringObject`, as `find_entry_slot` and `find_string` do; `none` models
the undefined behaviour of dereferencing a non-string object as a string. -/
def strOfHeap {α : Type} (heap : List (Obj α)) (id : Nat) : Option (String × Nat) :=
  match heap.get? id with
  | some (Obj.str chars hash) => some (chars, hash)
  | _ => none

/-- The hash a table key dereferences to (`find_entry_slot` reads
`string_object.hash`). -/
def hashOfHeap {α : Type} (heap : List (Obj α)) (id : Nat) : Option Nat :=
  match strOfHeap heap id with
  | some (_, h) => some h
  | none => none

/-- `StringObject::new` (`object.rs` lines 94-121): append a NUL
terminator, hash the buffer, return the interned object if the content
already exists, else allocate and insert the new object into the intern
table with value nil. -/
def stringNew {α : Type} (s : String) (heap : List (Obj α)) (strings : Table α) :
    Option (Nat × List (Obj α) × Table α) :=
  let buffer := s.push (Char.ofNat 0)
  let h := hashString buffer
  match strings.findString (strOfHeap heap) buffer h with
  | none => none
  | some (some k) => some (k, heap, strings)
  | some none =>
    let id := heap.length
    let heap := heap ++ [Obj.str buffer h]
    match strings.set (hashOfHeap heap) id Value.nil with
    | none => none
    | some (_, strings) => some (id, heap, strings)

/-- `StringObject::from_owned` (`object.rs` lines 124-146): hash the given
(already NUL-terminated) string, return the interned object if found;
otherwise allocate — the table is taken by shared reference and the new
object is *not* inserted into it. -/
def stringFromOwned {α : Type} (chars : String) (heap : List (Obj α)) (strings : Table α) :
    Option (Nat × List (Obj α)) :=
  let h := hashString chars
  match strings.findString (strOfHeap heap) chars h with
  | none => none
  | some (some k) => some (k, heap)
  | some none => some (heap.length, heap ++ [Obj.str chars h])

/-! ### Bytecode and VM engine (`vm.rs`, `frame.rs`, `chunk.rs`)

`op.rs` is declared by `lib.rs` but absent from `src/`; the opcode
enumeration below is *modelled from the spec's* instruction list (§4.1),
in that order. No claim depends on the numeric discriminants, only on
which bytes decode to which instruction. -/

/-- Modelled from the spec: the instruction set of §4.1 (`op.rs` is
missing from `src/`). -/
inductive Op where
  | CONSTANT | NIL | TRUE | FALSE | POP
  | GET_LOCAL | SET_LOCAL | GET_GLOBAL | DEFINE_GLOBAL | SET_GLOBAL
  | GET_UPVALUE | SET_UPVALUE | CLOSE_UPVALUE
  | EQUAL | GREATER | LESS
  | ADD | SUBTRACT | MULTIPLY | DIVIDE
  | NOT | NEGATE | PRINT
  | JUMP | JUMP_IF_FALSE | LOOP
  | CALL | CLOSURE | RETURN
deriving DecidableEq, Repr

/-- Byte encoding of an opcode (spec order). -/
def Op.toByte : Op → Nat
  | .CONSTANT => 0 | .NIL => 1 | .TRUE => 2 | .FALSE => 3 | .POP => 4
  | .GET_LOCAL => 5 | .SET_LOCAL => 6 | .GET_GLOBAL => 7 | .DEFINE_GLOBAL => 8
  | .SET_GLOBAL => 9 | .GET_UPVALUE => 10 | .SET_UPVALUE => 11 | .CLOSE_UPVALUE => 12
  | .EQUAL => 13 | .GREATER => 14 | .LESS => 15
  | .ADD => 16 | .SUBTRACT => 17 | .MULTIPLY => 18 | .DIVIDE => 19
  | .NOT => 20 | .NEGATE => 21 | .PRINT => 22
  | .JUMP => 23 | .JUMP_IF_FALSE => 24 | .LOOP => 25
  | .CALL => 26 | .CLOSURE => 27 | .RETURN => 28

/-- Decoding of an instruction byte; a byte outside the opcode range is
the `_` arm of the dispatch `match` in `run` (`vm.rs` line 406),
reported as "Unknown opcode". -/
def decodeOp (b : Nat) : Option Op :=
  if b = 0 then some .CONSTANT else if b = 1 then some .NIL
  else if b = 2 then some .TRUE else if b = 3 then some .FALSE
  else if b = 4 then some .POP else if b = 5 then some .GET_LOCAL
  else if b = 6 then some .SET_LOCAL else if b = 7 then some .GET_GLOBAL
  else if b = 8 then some .DEFINE_GLOBAL else if b = 9 then some .SET_GLOBAL
  else if b = 10 then some .GET_UPVALUE else if b = 11 then some .SET_UPVALUE
  else if b = 12 then some .CLOSE_UPVALUE else if b = 13 then some .EQUAL
  else if b = 14 then some .GREATER else if b = 15 then some .LESS
  else if b = 16 then some .ADD else if b = 17 then some .SUBTRACT
  else if b = 18 then some .MULTIPLY else if b = 19 then some .DIVIDE
  else if b = 20 then some .NOT else if b = 21 then some .NEGATE
  else if b = 22 then some .PRINT else if b = 23 then some .JUMP
  else if b = 24 then some .JUMP_IF_FALSE else if b = 25 then some .LOOP
  else if b = 26 then some .CALL else if b = 27 then some .CLOSURE
  else if b = 28 then some .RETURN else none

/-- `FRAMES_MAX` (`vm.rs` line 11). -/
def FRAMES_MAX : Nat := 64

/-- `STACK_MAX = FRAMES_MAX * u8::BITS` (`vm.rs` line 10). -/
def STACK_MAX : Nat := FRAMES_MAX * 8

/-- `CallFrame` (`frame.rs`): current closure (heap index), instruction
pointer, and `slots`, the base offset of this frame in the shared stack. -/
structure Frame where
  closureId : Nat
  ip : Nat
  slots : Nat
deriving DecidableEq, Repr

/-- The `VM` state (`vm.rs` lines 13-22). The operand stack is the live
prefix `stack[0..stack_top]` of the fixed 512-slot array: its length is
`stack_top`. `frames` is the always-64-element frame vector, `frameCount`
the number of live frames. `output` collects the values written by
`PRINT`. `hga` ("heap greater than stack") fixes the outcome of the two
raw-pointer order comparisons in `capture_value` and `close_upvalue`,
which compare the address of a heap cell's `location` field against a
stack address — unrelated allocations whose order the language does not
define; a uniform layout (all heap below or all heap above the stacks) is
assumed, `false` being the common platform behaviour. -/
structure VMState (α : Type) where
  stack : List (Value α)
  frames : List Frame
  frameCount : Nat
  heap : List (Obj α)
  strings : Table α
  globals : Table α
  openUpvalues : Option Nat
  output : List (Value α)
  hga : Bool

/-- A single dispatch outcome. `stuck` models a Rust panic (index out of
bounds, unwrap of `None`, usize underflow) or — only inside the table
primitives — a non-terminating probe loop; `err` is a runtime error after
a successfully printed stack trace, with the stack already reset. -/
inductive StepRes (α : Type) where
  | ok (st : VMState α)
  | halt (st : VMState α)
  | err (msg : String) (trace : List (Nat × Option String)) (st : VMState α)
  | stuck

/-- `frame!(self)`: `frames.get(frame_count - 1)`; with `frame_count = 0`
the usize subtraction underflows and the `expect` panics. -/
def curFrame {α : Type} (st : VMState α) : Option Frame :=
  if st.frameCount = 0 then none else st.frames.get? (st.frameCount - 1)

/-- Write back the current frame (`frame_mut!`). -/
def withFrame {α : Type} (st : VMState α) (fr : Frame) : VMState α :=
  { st with frames := st.frames.set (st.frameCount - 1) fr }

/-- `frame.closure.function`: dereference the current frame's closure,
then its function. -/
def frameFuncData {α : Type} (st : VMState α) (fr : Frame) : Option (FuncData α) :=
  match st.heap.get? fr.closureId with
  | some (Obj.closure fid _ _) =>
    match st.heap.get? fid with
    | some (Obj.func fd) => some fd
    | _ => none
  | _ => none

/-- `read_byte!` (`vm.rs` lines 63-72): fetch `chunk[ip]`, advance `ip`. -/
def readByte {α : Type} (st : VMState α) : Option (Nat × VMState α) :=
  match curFrame st with
  | none => none
  | some fr =>
    match frameFuncData st fr with
    | none => none
    | some fd =>
      match fd.chunk.code.get? fr.ip with
      | none => none
      | some b => some (b, withFrame st { fr with ip := fr.ip + 1 })

/-- The 16-bit big-endian decode of `read_short!` (`vm.rs` lines 74-85):
`(chunk[ip] as u16) << 8 | chunk[ip+1] as u16` (code bytes are `u8`,
so the shift-or is exactly `hi * 256 + lo`). -/
def readShortAt (code : List Nat) (ip : Nat) : Option Nat :=
  match code.get? ip, code.get? (ip + 1) with
  | some hi, some lo => some (hi * 256 + lo)
  | _, _ => none

/-- `read_short!`: advance `ip` by 2 and decode the two operand bytes. -/
def readShortSt {α : Type} (st : VMState α) : Option (Nat × VMState α) :=
  match curFrame st with
  | none => none
  | some fr =>
    match frameFuncData st fr with
    | none => none
    | some fd =>
      match readShortAt fd.chunk.code fr.ip with
      | none => none
      | some v => some (v, withFrame st { fr with ip := fr.ip + 2 })

/-- `read_constant!` (`vm.rs` lines 87-94): operand byte indexes the
constant pool (out of range panics). -/
def readConstant {α : Type} (st : VMState α) : Option (Value α × VMState α) :=
  match readByte st with
  | none => none
  | some (b, st) =>
    match curFrame st with
    | none => none
    | some fr =>
      match frameFuncData st fr with
      | none => none
      | some fd =>
        match fd.chunk.constants.get? b with
        | none => none
        | some v => some (v, st)

/-- `VM::push` (`vm.rs` lines 416-419): writing at `stack[stack_top]`
with `stack_top = 512` indexes out of bounds. -/
def pushV {α : Type} (st : VMState α) (v : Value α) : Option (VMState α) :=
  if st.stack.length < STACK_MAX then some { st with stack := st.stack ++ [v] } else none

/-- `VM::pop` (`vm.rs` lines 421-424): `stack_top` underflows on an empty
stack. -/
def popV {α : Type} (st : VMState α) : Option (Value α × VMState α) :=
  match st.stack.getLast? with
  | none => none
  | some v => some (v, { st with stack := st.stack.dropLast })

/-- `VM::peek` (`vm.rs` lines 430-432): `stack[stack_top - 1 - distance]`,
underflowing when the distance reaches below the stack bottom. -/
def peekV {α : Type} (st : VMState α) (d : Nat) : Option (Value α) :=
  if d < st.stack.length then st.stack.get? (st.stack.length - 1 - d) else none

/-- One line of the stack trace printed by `runtime_error!` (`vm.rs` lines
121-132) for frame `i`: the line `frame.closure.function.chunk.lines[frame.ip]`
and the function's name (`none` rendered as "script"). Any of the
dereferences or the `lines` indexing can panic (`none`). -/
def traceLine {α : Type} (heap : List (Obj α)) (frames : List Frame) (i : Nat) :
    Option (Nat × Option String) :=
  match frames.get? i with
  | none => none
  | some fr =>
    match heap.get? fr.closureId with
    | some (Obj.closure fid _ _) =>
      match heap.get? fid with
      | some (Obj.func fd) =>
        match fd.chunk.lines.get? fr.ip with
        | none => none
        | some line =>
          match fd.name with
          | none => some (line, none)
          | some nid =>
            match heap.get? nid with
            | some (Obj.str s _) => some (line, some s)
            | _ => none
      | _ => none
    | _ => none

/-- Sequence a list of fallible line computations, failing on the first
`none` — the trace loop prints line after line and panics where a lookup
panics. -/
def optMapM {ι β : Type} (f : ι → Option β) : List ι → Option (List β)
  | [] => some []
  | x :: xs =>
    match f x, optMapM f xs with
    | some y, some ys => some (y :: ys)
    | _, _ => none

/-- The stack trace of `runtime_error!`: one line per live frame, from the
innermost (`frame_count - 1`) down to frame 0. -/
def mkTrace {α : Type} (st : VMState α) : Option (List (Nat × Option String)) :=
  optMapM (traceLine st.heap st.frames) (List.range st.frameCount).reverse

/-- `reset_stack` (`vm.rs` lines 426-428): `stack_top = 0`. -/
def resetStack {α : Type} (st : VMState α) : VMState α := { st with stack := [] }

/-- `runtime_error!` (`vm.rs` lines 112-138): print the message, then the
stack trace, then reset the stack; every call site then fails `run()`.
If building any trace line panics, the process aborts (`stuck`). -/
def mkRuntimeError {α : Type} (st : VMState α) (msg : String) : StepRes α :=
  match mkTrace st with
  | none => .stuck
  | some tr => .err msg tr (resetStack st)

/-- The loop of `close_upvalue` (`vm.rs` lines 547-556). The guard
`open_upvalues.location.as_ptr() >= last` compares a heap field address
with a stack slot address: `st.hga` per the layout model. Each unlinked
cell gets `closed = location; location = closed` — its `location` value is
unchanged and copied into `closed`. Fueled: a cyclic open list would loop
forever in Rust (`none`). -/
def closeUpvaluesAux {α : Type} : VMState α → Nat → Option (VMState α)
  | _, 0 => none
  | st, fuel + 1 =>
    if st.hga then
      match st.openUpvalues with
      | none => some st
      | some uid =>
        match st.heap.get? uid with
        | some (Obj.upval loc _ nxt) =>
          closeUpvaluesAux
            { st with heap := st.heap.set uid (Obj.upval loc loc nxt), openUpvalues := nxt }
            fuel
        | _ => none
    else some st

/-- `close_upvalue` with enough fuel for any acyclic open list. -/
def closeUpvalues {α : Type} (st : VMState α) : Option (VMState α) :=
  closeUpvaluesAux st (st.heap.length + 1)

/-- The list walk of `capture_value` (`vm.rs` lines 522-528), executed
when the guard `upvalue.location.as_ptr() > local.as_ptr()` holds (`hga`);
returns `(prev_upvalue, upvalue)`. -/
def openWalkAux {α : Type} (heap : List (Obj α)) :
    Option Nat → Option Nat → Nat → Option (Option Nat × Option Nat)
  | _, _, 0 => none
  | prev, none, _ + 1 => some (prev, none)
  | _, some uid, fuel + 1 =>
    match heap.get? uid with
    | some (Obj.upval _ _ nxt) => openWalkAux heap (some uid) nxt fuel
    | _ => none

/-- The allocation arm of `capture_value` (`vm.rs` lines 534-544): a fresh
`UpValueObject` holding a *copy* of the captured value, spliced after
`prev` (or at the head). -/
def captureCreate {α : Type} (st : VMState α) (lv : Value α) (prev uv : Option Nat) :
    Option (Nat × VMState α) :=
  let newId := st.heap.length
  let heap := st.heap ++ [Obj.upval lv Value.nil uv]
  match prev with
  | none => some (newId, { st with heap := heap, openUpvalues := some newId })
  | some pid =>
    match heap.get? pid with
    | some (Obj.upval l c _) =>
      some (newId, { st with heap := heap.set pid (Obj.upval l c (some newId)) })
    | _ => none

/-- `capture_value` (`vm.rs` lines 521-545). Note it receives the captured
stack slot's *value* (`self.stack[captured_value_index]`), not its
address: the walk guard compares unrelated addresses (`st.hga`), and the
reuse test `upvalue.location == local` is *value* equality. -/
def captureValue {α : Type} (nm : NumOps α) (st : VMState α) (lv : Value α) :
    Option (Nat × VMState α) :=
  match (if st.hga then openWalkAux st.heap none st.openUpvalues (st.heap.length + 1)
         else some (none, st.openUpvalues)) with
  | none => none
  | some (prev, uv) =>
    match uv with
    | some uid =>
      match st.heap.get? uid with
      | some (Obj.upval loc _ _) =>
        if valueEq nm loc lv then some (uid, st)
        else captureCreate st lv prev uv
      | _ => none
    | none => captureCreate st lv prev uv

/-- A single quote character (for reproducing the error-message text). -/
def sq : String := String.singleton (Char.ofNat 39)

/-- The "Undefined variable '<name>'" message of `GET_GLOBAL`/`SET_GLOBAL`
(`vm.rs` lines 288, 306); `<name>` is the `chars` field, NUL terminator
included. -/
def undefinedVarMsg (chars : String) : String :=
  "Undefined variable " ++ sq ++ chars ++ sq

/-- `Op::RETURN` (`vm.rs` lines 194-213): pop the result, run the
upvalue-closing walk, pop the frame; at depth zero pop once more and halt,
otherwise truncate the stack to the frame's base slot and push the result. -/
def execReturn {α : Type} (st : VMState α) : StepRes α :=
  match popV st with
  | none => .stuck
  | some (result, st) =>
    match curFrame st with
    | none => .stuck
    | some fr =>
      match closeUpvalues st with
      | none => .stuck
      | some st =>
        let st := { st with frameCount := st.frameCount - 1 }
        if st.frameCount = 0 then
          match popV st with
          | none => .stuck
          | some (_, st) => .halt st
        else
          match pushV { st with stack := st.stack.take fr.slots } result with
          | some st => .ok st
          | none => .stuck

/-- `Op::NEGATE` (`vm.rs` lines 214-222). -/
def execNegate {α : Type} (nm : NumOps α) (st : VMState α) : StepRes α :=
  match peekV st 0 with
  | none => .stuck
  | some v =>
    if !v.isNumber then mkRuntimeError st "Operand must be a number."
    else
      match popV st with
      | some (Value.number x, st) =>
        match pushV st (Value.number (nm.neg x)) with
        | some st => .ok st
        | none => .stuck
      | _ => .stuck

/-- `binary_op!` (`vm.rs` lines 96-110) as used by `GREATER`, `LESS`,
`SUBTRACT`, `MULTIPLY`, `DIVIDE`: both operands must be numbers, else the
runtime error "<op> operands must be numbers". -/
def execBinary {α : Type} (mk : α → α → Value α) (opName : String) (st : VMState α) :
    StepRes α :=
  match peekV st 0, peekV st 1 with
  | some v0, some v1 =>
    if !(v0.isNumber && v1.isNumber) then
      mkRuntimeError st (opName ++ " operands must be numbers")
    else
      match popV st with
      | some (Value.number y, st) =>
        match popV st with
        | some (Value.number x, st) =>
          match pushV st (mk x y) with
          | some st => .ok st
          | none => .stuck
        | _ => .stuck
      | _ => .stuck
  | _, _ => .stuck

/-- `Value::is_string` dereferences the object header tag; `none` models
dereferencing a dangling index. Non-objects are not strings without any
dereference. -/
def valIsString {α : Type} (heap : List (Obj α)) : Value α → Option Bool
  | .object id =>
    match heap.get? id with
    | some (Obj.str _ _) => some true
    | some _ => some false
    | none => none
  | _ => some false

/-- `concatenate` (`vm.rs` lines 446-463): pop `b` then `a`, build
`a.chars` and `b.chars` each without its NUL terminator, append a NUL, and
intern-or-allocate via `StringObject::from_owned`. -/
def concatenate {α : Type} (st : VMState α) : Option (VMState α) :=
  match popV st with
  | none => none
  | some (b, st) =>
    match popV st with
    | none => none
    | some (a, st) =>
      match a, b with
      | .object ia, .object ib =>
        match strOfHeap st.heap ia, strOfHeap st.heap ib with
        | some (achars, _), some (bchars, _) =>
          let buffer := (achars.dropRight 1 ++ bchars.dropRight 1).push (Char.ofNat 0)
          match stringFromOwned buffer st.heap st.strings with
          | none => none
          | some (rid, heap) => pushV { st with heap := heap } (Value.object rid)
        | _, _ => none
      | _, _ => none

/-- `Op::ADD` (`vm.rs` lines 234-246): two strings concatenate, two
numbers add, anything else is the runtime error
"Operands must be two numbers or two strings.". -/
def execAdd {α : Type} (nm : NumOps α) (st : VMState α) : StepRes α :=
  match peekV st 0, peekV st 1 with
  | some v0, some v1 =>
    match valIsString st.heap v0, valIsString st.heap v1 with
    | some s0, some s1 =>
      if s0 && s1 then
        match concatenate st with
        | some st => .ok st
        | none => .stuck
      else if v0.isNumber && v1.isNumber then
        match popV st with
        | some (Value.number y, st) =>
          match popV st with
          | some (Value.number x, st) =>
            match pushV st (Value.number (nm.add x y)) with
            | some st => .ok st
            | none => .stuck
          | _ => .stuck
        | _ => .stuck
      else mkRuntimeError st "Operands must be two numbers or two strings."
    | _, _ => .stuck
  | _, _ => .stuck

/-- `Op::NOT` (`vm.rs` lines 253-256). -/
def execNot {α : Type} (st : VMState α) : StepRes α :=
  match popV st with
  | none => .stuck
  | some (v, st) =>
    match pushV st (Value.bool v.isFalsey) with
    | some st => .ok st
    | none => .stuck

/-- `Op::EQUAL` (`vm.rs` lines 257-261): never errors; `PartialEq` on
`Value`. -/
def execEqual {α : Type} (nm : NumOps α) (st : VMState α) : StepRes α :=
  match popV st with
  | none => .stuck
  | some (b, st) =>
    match popV st with
    | none => .stuck
    | some (a, st) =>
      match pushV st (Value.bool (valueEq nm a b)) with
      | some st => .ok st
      | none => .stuck

/-- `Op::PRINT` (`vm.rs` lines 262-266): pop and write to the output. -/
def execPrint {α : Type} (st : VMState α) : StepRes α :=
  match popV st with
  | none => .stuck
  | some (v, st) => .ok { st with output := st.output ++ [v] }

/-- `Op::POP`. -/
def execPop {α : Type} (st : VMState α) : StepRes α :=
  match popV st with
  | none => .stuck
  | some (_, st) => .ok st

/-- `Op::DEFINE_GLOBAL` (`vm.rs` lines 271-277). -/
def execDefineGlobal {α : Type} (st : VMState α) : StepRes α :=
  match readConstant st with
  | none => .stuck
  | some (Value.object nameId, st) =>
    match peekV st 0 with
    | none => .stuck
    | some val =>
      match st.globals.set (hashOfHeap st.heap) nameId val with
      | none => .stuck
      | some (_, globals) =>
        match popV { st with globals := globals } with
        | some (_, st) => .ok st
        | none => .stuck
  | some _ => .stuck

/-- `Op::GET_GLOBAL` (`vm.rs` lines 278-293). -/
def execGetGlobal {α : Type} (st : VMState α) : StepRes α :=
  match readConstant st with
  | none => .stuck
  | some (Value.object nameId, st) =>
    match st.globals.get (hashOfHeap st.heap) nameId with
    | none => .stuck
    | some none =>
      match strOfHeap st.heap nameId with
      | none => .stuck
      | some (chars, _) => mkRuntimeError st (undefinedVarMsg chars)
    | some (some val) =>
      match pushV st val with
      | some st => .ok st
      | none => .stuck
  | some _ => .stuck

/-- `Op::SET_GLOBAL` (`vm.rs` lines 295-311): sets the existing global to
`peek(0)` (which stays on the stack); a previously undefined name is
deleted again and reported undefined. -/
def execSetGlobal {α : Type} (st : VMState α) : StepRes α :=
  match readConstant st with
  | none => .stuck
  | some (Value.object nameId, st) =>
    match peekV st 0 with
    | none => .stuck
    | some val =>
      match st.globals.set (hashOfHeap st.heap) nameId val with
      | none => .stuck
      | some (isNew, globals) =>
        let st := { st with globals := globals }
        if isNew then
          match st.globals.delete (hashOfHeap st.heap) nameId with
          | none => .stuck
          | some (_, globals) =>
            match strOfHeap st.heap nameId with
            | none => .stuck
            | some (chars, _) => mkRuntimeError { st with globals := globals } (undefinedVarMsg chars)
        else .ok st
  | some _ => .stuck

/-- `Op::GET_LOCAL` (`vm.rs` lines 313-317): reads
`stack[frame.slots + slot]`. Rust reads the fixed array, so a read above
`stack_top` would yield a stale value; that cannot happen for
compiler-emitted slots, and the model treats it as `stuck`. -/
def execGetLocal {α : Type} (st : VMState α) : StepRes α :=
  match readByte st with
  | none => .stuck
  | some (slot, st) =>
    match curFrame st with
    | none => .stuck
    | some fr =>
      match st.stack.get? (fr.slots + slot) with
      | none => .stuck
      | some v =>
        match pushV st v with
        | some st => .ok st
        | none => .stuck

/-- `Op::SET_LOCAL` (`vm.rs` lines 319-327): writes `peek(0)` (not popped)
into `stack[frame.slots + slot]`. -/
def execSetLocal {α : Type} (st : VMState α) : StepRes α :=
  match readByte st with
  | none => .stuck
  | some (slot, st) =>
    match peekV st 0 with
    | none => .stuck
    | some v =>
      match curFrame st with
      | none => .stuck
      | some fr =>
        if fr.slots + slot < st.stack.length then
          .ok { st with stack := st.stack.set (fr.slots + slot) v }
        else .stuck

/-- Add `off` to the current frame's instruction pointer. -/
def bumpIp {α : Type} (st : VMState α) (off : Nat) : Option (VMState α) :=
  match curFrame st with
  | none => none
  | some fr => some (withFrame st { fr with ip := fr.ip + off })

/-- `Op::JUMP_IF_FALSE` (`vm.rs` lines 328-335): the condition is peeked,
not popped. -/
def execJumpIfFalse {α : Type} (st : VMState α) : StepRes α :=
  match readShortSt st with
  | none => .stuck
  | some (off, st) =>
    match peekV st 0 with
    | none => .stuck
    | some v =>
      if v.isFalsey then
        match bumpIp st off with
        | some st => .ok st
        | none => .stuck
      else .ok st

/-- `Op::JUMP` (`vm.rs` lines 337-341). -/
def execJump {α : Type} (st : VMState α) : StepRes α :=
  match readShortSt st with
  | none => .stuck
  | some (off, st) =>
    match bumpIp st off with
    | some st => .ok st
    | none => .stuck

/-- `Op::LOOP` (`vm.rs` lines 343-347): `ip -= offset` (usize underflow
panics). -/
def execLoop {α : Type} (st : VMState α) : StepRes α :=
  match readShortSt st with
  | none => .stuck
  | some (off, st) =>
    match curFrame st with
    | none => .stuck
    | some fr =>
      if off ≤ fr.ip then .ok (withFrame st { fr with ip := fr.ip - off })
      else .stuck

/-- `VM::call` (`vm.rs` lines 493-519): frame-overflow check first, then
`frame_count` is incremented *before* the arity check, so an arity error
reports with the half-pushed frame in range of the trace. -/
def callClosure {α : Type} (st : VMState α) (calleeId argCount : Nat) : StepRes α :=
  if st.frameCount = FRAMES_MAX then mkRuntimeError st "Stack overflow."
  else
    let st := { st with frameCount := st.frameCount + 1 }
    if st.frameCount - 1 < st.frames.length then
      match st.heap.get? calleeId with
      | some (Obj.closure fid _ _) =>
        match st.heap.get? fid with
        | some (Obj.func fd) =>
          if argCount ≠ fd.arity then
            mkRuntimeError st
              ("Expected " ++ toString fd.arity ++ " arguments but got " ++ toString argCount)
          else
            .ok { st with
              frames := st.frames.set (st.frameCount - 1)
                ⟨calleeId, 0, st.stack.length - argCount - 1⟩ }
        | _ => .stuck
      | _ => .stuck
    else .stuck

/-- `call_value` (`vm.rs` lines 465-491): closures go through `call`;
natives are invoked directly with the caller's argument count and a view
of the top `argCount` stack values, the callee-plus-arguments span is
replaced by the returned value and no frame is pushed; everything else is
"Can only call functions and classes.". -/
def callValue {α : Type} (st : VMState α) (callee : Value α) (argCount : Nat) : StepRes α :=
  match callee with
  | .object id =>
    match st.heap.get? id with
    | none => .stuck
    | some (Obj.closure _ _ _) => callClosure st id argCount
    | some (Obj.native f) =>
      if argCount < st.stack.length then
        let result := f argCount (st.stack.drop (st.stack.length - argCount))
        match pushV { st with stack := st.stack.take (st.stack.length - argCount - 1) } result with
        | some st => .ok st
        | none => .stuck
      else .stuck
    | some _ => mkRuntimeError st "Can only call functions and classes."
  | _ => mkRuntimeError st "Can only call functions and classes."

/-- `Op::CALL` (`vm.rs` lines 349-357): read the argument count, peek the
callee `argCount` slots below the top, dispatch. -/
def execCall {α : Type} (st : VMState α) : StepRes α :=
  match readByte st with
  | none => .stuck
  | some (argCount, st) =>
    match peekV st argCount with
    | none => .stuck
    | some callee => callValue st callee argCount

/-- Write upvalue cell pointer `u` into slot `idx` of a closure object. -/
def setClosureUpvalue {α : Type} (st : VMState α) (closureId idx : Nat) (u : Option Nat) :
    Option (VMState α) :=
  match st.heap.get? closureId with
  | some (Obj.closure fid ups n) =>
    if idx < ups.length then
      some { st with heap := st.heap.set closureId (Obj.closure fid (ups.set idx u) n) }
    else none
  | _ => none

/-- The upvalue-descriptor loop of `Op::CLOSURE` (`vm.rs` lines 363-376):
for each of the `remaining` descriptors read `is_local` and `index`;
`is_local == 1` captures `stack[frame.slots + index]` by value through
`capture_value`, otherwise the enclosing closure's upvalue pointer at
`index` is copied as-is. -/
def closureLoop {α : Type} (nm : NumOps α) (closureId : Nat) :
    Nat → Nat → VMState α → Option (VMState α)
  | _, 0, st => some st
  | idx, remaining + 1, st =>
    match readByte st with
    | none => none
    | some (isLocal, st) =>
      match readByte st with
      | none => none
      | some (index, st) =>
        if isLocal = 1 then
          match curFrame st with
          | none => none
          | some fr =>
            match st.stack.get? (fr.slots + index) with
            | none => none
            | some lv =>
              match captureValue nm st lv with
              | none => none
              | some (uid, st) =>
                match setClosureUpvalue st closureId idx (some uid) with
                | none => none
                | some st => closureLoop nm closureId (idx + 1) remaining st
        else
          match curFrame st with
          | none => none
          | some fr =>
            match st.heap.get? fr.closureId with
            | some (Obj.closure _ ups _) =>
              match ups.get? index with
              | none => none
              | some u =>
                match setClosureUpvalue st closureId idx u with
                | none => none
                | some st => closureLoop nm closureId (idx + 1) remaining st
            | _ => none

/-- `Op::CLOSURE` (`vm.rs` lines 359-379): allocate a `ClosureObject` for
the constant-pool function, fill its upvalues, push it. -/
def execClosureOp {α : Type} (nm : NumOps α) (st : VMState α) : StepRes α :=
  match readConstant st with
  | none => .stuck
  | some (Value.object fid, st) =>
    match st.heap.get? fid with
    | some (Obj.func fd) =>
      let cid := st.heap.length
      let st := { st with
        heap := st.heap ++ [Obj.closure fid (List.replicate fd.upvalueCount none) fd.upvalueCount] }
      match closureLoop nm cid 0 fd.upvalueCount st with
      | none => .stuck
      | some st =>
        match pushV st (Value.object cid) with
        | some st => .ok st
        | none => .stuck
    | _ => .stuck
  | some _ => .stuck

/-- `Op::GET_UPVALUE` (`vm.rs` lines 381-389): push the cell's `location`
value. -/
def execGetUpvalue {α : Type} (st : VMState α) : StepRes α :=
  match readByte st with
  | none => .stuck
  | some (slot, st) =>
    match curFrame st with
    | none => .stuck
    | some fr =>
      match st.heap.get? fr.closureId with
      | some (Obj.closure _ ups _) =>
        match ups.get? slot with
        | some (some uid) =>
          match st.heap.get? uid with
          | some (Obj.upval loc _ _) =>
            match pushV st loc with
            | some st => .ok st
            | none => .stuck
          | _ => .stuck
        | _ => .stuck
      | _ => .stuck

/-- `Op::SET_UPVALUE` (`vm.rs` lines 391-399): store `peek(0)` (not
popped) into the cell's `location`. -/
def execSetUpvalue {α : Type} (st : VMState α) : StepRes α :=
  match readByte st with
  | none => .stuck
  | some (slot, st) =>
    match peekV st 0 with
    | none => .stuck
    | some v =>
      match curFrame st with
      | none => .stuck
      | some fr =>
        match st.heap.get? fr.closureId with
        | some (Obj.closure _ ups _) =>
          match ups.get? slot with
          | some (some uid) =>
            match st.heap.get? uid with
            | some (Obj.upval _ cls nxt) =>
              .ok { st with heap := st.heap.set uid (Obj.upval v cls nxt) }
            | _ => .stuck
          | _ => .stuck
        | _ => .stuck

/-- `Op::CLOSE_UPVALUE` (`vm.rs` lines 401-404): run the closing walk
against the address of the top stack slot, then pop it. -/
def execCloseUpvalue {α : Type} (st : VMState α) : StepRes α :=
  if st.stack.length = 0 then .stuck
  else
    match closeUpvalues st with
    | none => .stuck
    | some st =>
      match popV st with
      | some (_, st) => .ok st
      | none => .stuck

/-- Push a literal (`NIL`/`TRUE`/`FALSE`). -/
def execPush {α : Type} (st : VMState α) (v : Value α) : StepRes α :=
  match pushV st v with
  | some st => .ok st
  | none => .stuck

/-- `Op::CONSTANT`. -/
def execConstant {α : Type} (st : VMState α) : StepRes α :=
  match readConstant st with
  | none => .stuck
  | some (v, st) => execPush st v

/-- Dispatch one decoded instruction (the `match` of `run`,
`vm.rs` lines 192-411). -/
def exec {α : Type} (nm : NumOps α) : Op → VMState α → StepRes α
  | .RETURN, st => execReturn st
  | .NEGATE, st => execNegate nm st
  | .CONSTANT, st => execConstant st
  | .GREATER, st => execBinary (fun x y => Value.bool (nm.gt x y)) ">" st
  | .LESS, st => execBinary (fun x y => Value.bool (nm.lt x y)) "<" st
  | .ADD, st => execAdd nm st
  | .SUBTRACT, st => execBinary (fun x y => Value.number (nm.sub x y)) "-" st
  | .MULTIPLY, st => execBinary (fun x y => Value.number (nm.mul x y)) "*" st
  | .DIVIDE, st => execBinary (fun x y => Value.number (nm.div x y)) "/" st
  | .NIL, st => execPush st Value.nil
  | .TRUE, st => execPush st (Value.bool true)
  | .FALSE, st => execPush st (Value.bool false)
  | .NOT, st => execNot st
  | .EQUAL, st => execEqual nm st
  | .PRINT, st => execPrint st
  | .POP, st => execPop st
  | .DEFINE_GLOBAL, st => execDefineGlobal st
  | .GET_GLOBAL, st => execGetGlobal st
  | .SET_GLOBAL, st => execSetGlobal st
  | .GET_LOCAL, st => execGetLocal st
  | .SET_LOCAL, st => execSetLocal st
  | .JUMP_IF_FALSE, st => execJumpIfFalse st
  | .JUMP, st => execJump st
  | .LOOP, st => execLoop st
  | .CALL, st => execCall st
  | .CLOSURE, st => execClosureOp nm st
  | .GET_UPVALUE, st => execGetUpvalue st
  | .SET_UPVALUE, st => execSetUpvalue st
  | .CLOSE_UPVALUE, st => execCloseUpvalue st

/-- One iteration of `run` (`vm.rs` lines 164-414): fetch, decode
(`std::mem::transmute`, with unmatched bytes reported as
"Unknown opcode"), execute. -/
def step {α : Type} (nm : NumOps α) (st : VMState α) : StepRes α :=
  match readByte st with
  | none => .stuck
  | some (b, st) =>
    match decodeOp b with
    | none => mkRuntimeError st "Unknown opcode"
    | some op => exec nm op st

/-- The result of a bounded `run`: `done` is `Ok(())`, `failed` is the
`Err(RuntimeError)` return (with the printed message and trace), `stuck`
is a panic or an inner non-terminating loop, `more` means the fuel ran
out mid-execution. -/
inductive Outcome (α : Type) where
  | done (st : VMState α)
  | failed (msg : String) (trace : List (Nat × Option String)) (st : VMState α)
  | stuck
  | more (st : VMState α)

/-- `run` with fuel. -/
def runFuel {α : Type} (nm : NumOps α) : Nat → VMState α → Outcome α
  | 0, st => .more st
  | fuel + 1, st =>
    match step nm st with
    | .ok st => runFuel nm fuel st
    | .halt st => .done st
    | .err msg tr st => .failed msg tr st
    | .stuck => .stuck

/-- Apply `step` exactly `n` times, requiring each step to continue. -/
def stepIter {α : Type} (nm : NumOps α) : Nat → VMState α → Option (VMState α)
  | 0, st => some st
  | n + 1, st =>
    match step nm st with
    | .ok st => stepIter nm n st
    | _ => none

/-- The output of a successfully terminating run. -/
def runOutput {α : Type} (nm : NumOps α) (fuel : Nat) (st : VMState α) :
    Option (List (Value α)) :=
  match runFuel nm fuel st with
  | .done st => some st.output
  | _ => none

/-- The instruction byte the VM would fetch next. -/
def currentOpByte {α : Type} (st : VMState α) : Option Nat :=
  match curFrame st with
  | none => none
  | some fr =>
    match frameFuncData st fr with
    | none => none
    | some fd => fd.chunk.code.get? fr.ip

/-- The `f64` operations instantiated at `Int`; exact for the integer
arithmetic the concrete executions below perform (IEEE-754 doubles
represent integers of this size exactly and add/subtract/multiply them
exactly). -/
def nmInt : NumOps Int :=
  ⟨(· + ·), (· - ·), (· * ·), (· / ·), (- ·), (· == ·), (· < ·) , (· > ·)⟩

/-! ### Concrete compiled programs

The claims speak about executing compiled chunks. The front end is out of
scope of the claims; the chunks below are the bytecode the single-pass
compiler (`compiler/src/parser.rs`) emits for the quoted sources,
following its codegen rules: local slot 0 of every function is reserved
(`local_count` starts at 1), top-level names are globals addressed through
constant-pool string objects (one fresh constant index per mention, all
resolving to the same interned object), function bodies end with the
implicit `NIL RETURN`, and `CLOSURE` is followed by one
`is_local, index` byte pair per upvalue. -/

/-- NUL-terminate a string the way `StringObject::new` builds its buffer. -/
def nulTerm (s : String) : String := s.push (Char.ofNat 0)

/-- An interned string object with the content (NUL-terminated) and its
FNV-1a hash, as `StringObject::new` allocates it. -/
def strObj {α : Type} (s : String) : Obj α := Obj.str (nulTerm s) (hashString (nulTerm s))

/-- Build the intern table produced by a sequence of `StringObject::new`
calls on fresh contents: each does `table.set(ptr, nil)`. Using the final
heap for the hash dereferences is equivalent, because each key's string
object is already present when it is inserted and never changes. -/
def internAll {α : Type} (heap : List (Obj α)) (ids : List Nat) : Option (Table α) :=
  ids.foldlM (fun t id => (Table.set (hashOfHeap heap) t id Value.nil).map Prod.snd) Table.new

/-- Modelled from the spec: the startup of a VM run (`main.rs` in `src/`
is an out-of-sync iteration and the `interpret` glue is missing): per §4.5
the machine starts in "Ready (frame 0 pushed, ip 0)" — the script closure
sits in stack slot 0, frame 0 has `base_slot` 0 and `ip` 0. `VM::new`
(`vm.rs` lines 141-162) fills `frames` with `CallFrame::new()` dummies
(per `frame.rs`, a fresh nameless function with an empty chunk wrapped in
a closure; the model shares one dummy closure object, which no operation
distinguishes from per-frame dummies) and `define_native` interns "clock"
and binds it in `globals` to the native object. -/
def mkInit {α : Type} (heap : List (Obj α)) (internIds : List Nat)
    (clockNameId nativeId dummyClosId scriptClosId : Nat) (hga : Bool) :
    Option (VMState α) :=
  match internAll heap internIds with
  | none => none
  | some strings =>
    match Table.set (hashOfHeap heap) Table.new clockNameId (Value.object nativeId) with
    | none => none
    | some (_, globals) =>
      some { stack := [Value.object scriptClosId],
             frames := (List.replicate FRAMES_MAX (⟨dummyClosId, 0, 0⟩ : Frame)).set 0
               ⟨scriptClosId, 0, 0⟩,
             frameCount := 1, heap := heap, strings := strings, globals := globals,
             openUpvalues := none, output := [], hga := hga }

/-- Chunk of `fun inc() { i = i + 1; return i; }` (upvalue 0 = `i`):
`i = i + 1` compiles to GET_UPVALUE 0, CONSTANT 0, ADD, SET_UPVALUE 0 and
the expression statement's POP; `return i` to GET_UPVALUE 0, RETURN. -/
def incChunk : Chunk Int :=
  ⟨[Op.toByte .GET_UPVALUE, 0, Op.toByte .CONSTANT, 0, Op.toByte .ADD,
    Op.toByte .SET_UPVALUE, 0, Op.toByte .POP,
    Op.toByte .GET_UPVALUE, 0, Op.toByte .RETURN,
    Op.toByte .NIL, Op.toByte .RETURN],
   List.replicate 13 1, [Value.number 1]⟩

/-- Chunk of `fun makeCounter() { var i = 0; fun inc() {...} return inc; }`:
`var i = 0` (local slot 1), `CLOSURE` over `incFn` capturing local 1
(operands `1, 1`), `inc` at local slot 2, `return inc`. -/
def mcChunk : Chunk Int :=
  ⟨[Op.toByte .CONSTANT, 0, Op.toByte .CLOSURE, 1, 1, 1,
    Op.toByte .GET_LOCAL, 2, Op.toByte .RETURN,
    Op.toByte .NIL, Op.toByte .RETURN],
   List.replicate 11 2, [Value.number 0, Value.object 3]⟩

/-- Top-level chunk of
`fun makeCounter() {...} var c = makeCounter(); print c(); print c();`.
Constants: 0,3 = "makeCounter" (heap 1), 1 = the makeCounter function
(heap 2), 2,4,5 = "c" (heap 5). -/
def mcScriptChunk : Chunk Int :=
  ⟨[Op.toByte .CLOSURE, 1, Op.toByte .DEFINE_GLOBAL, 0,
    Op.toByte .GET_GLOBAL, 3, Op.toByte .CALL, 0, Op.toByte .DEFINE_GLOBAL, 2,
    Op.toByte .GET_GLOBAL, 4, Op.toByte .CALL, 0, Op.toByte .PRINT,
    Op.toByte .GET_GLOBAL, 5, Op.toByte .CALL, 0, Op.toByte .PRINT,
    Op.toByte .NIL, Op.toByte .RETURN],
   List.replicate 23 3,
   [Value.object 1, Value.object 2, Value.object 5,
    Value.object 1, Value.object 5, Value.object 5]⟩

/-- Compile-time heap of the makeCounter program, in allocation order:
script function (0), "makeCounter" (1), makeCounter function (2),
inc function (3), "inc" (4), "c" (5); then `VM::new`'s frame dummies
(6, 7), the interned "clock" (8) and the clock native (9); finally the
script closure (10) pushed by the startup. -/
def mcHeap (clockFn : Nat → List (Value Int) → Value Int) : List (Obj Int) :=
  [Obj.func ⟨0, mcScriptChunk, 0, none⟩,
   strObj "makeCounter",
   Obj.func ⟨0, mcChunk, 0, some 1⟩,
   Obj.func ⟨0, incChunk, 1, some 4⟩,
   strObj "inc",
   strObj "c",
   Obj.func ⟨0, ⟨[], [], []⟩, 0, none⟩,
   Obj.closure 6 [] 0,
   strObj "clock",
   Obj.native clockFn,
   Obj.closure 0 [] 0]

/-- Initial VM state of the makeCounter program. -/
def mcInit (hga : Bool) (clockFn : Nat → List (Value Int) → Value Int) :
    Option (VMState Int) :=
  mkInit (mcHeap clockFn) [1, 4, 5, 8] 8 9 7 10 hga

/-- A stand-in for the impure `clock_native` host function. -/
def clockStub : Nat → List (Value Int) → Value Int := fun _ _ => Value.nil

/-- Chunk of `fun get() { return i; }` (upvalue 0 = `i`). -/
def getChunk : Chunk Int :=
  ⟨[Op.toByte .GET_UPVALUE, 0, Op.toByte .RETURN, Op.toByte .NIL, Op.toByte .RETURN],
   List.replicate 5 1, []⟩

/-- Top-level chunk of
`{ var i = 0; fun get() { return i; } i = 5; print get(); }`:
block locals `i` (slot 1, captured) and `get` (slot 2); `i = 5` is
CONSTANT 2, SET_LOCAL 1, POP; leaving the block pops `get` (POP) and
closes `i` (CLOSE_UPVALUE). Constants: 0 = 0, 1 = the get function
(heap 1), 2 = 5. -/
def blkScriptChunk : Chunk Int :=
  ⟨[Op.toByte .CONSTANT, 0, Op.toByte .CLOSURE, 1, 1, 1,
    Op.toByte .CONSTANT, 2, Op.toByte .SET_LOCAL, 1, Op.toByte .POP,
    Op.toByte .GET_LOCAL, 2, Op.toByte .CALL, 0, Op.toByte .PRINT,
    Op.toByte .POP, Op.toByte .CLOSE_UPVALUE,
    Op.toByte .NIL, Op.toByte .RETURN],
   List.replicate 19 1, [Value.number 0, Value.object 1, Value.number 5]⟩

/-- Heap of the block program: script function (0), get function (1),
"get" (2), frame dummies (3, 4), "clock" (5), native (6), script
closure (7). -/
def blkHeap : List (Obj Int) :=
  [Obj.func ⟨0, blkScriptChunk, 0, none⟩,
   Obj.func ⟨0, getChunk, 1, some 2⟩,
   strObj "get",
   Obj.func ⟨0, ⟨[], [], []⟩, 0, none⟩,
   Obj.closure 3 [] 0,
   strObj "clock",
   Obj.native clockStub,
   Obj.closure 0 [] 0]

/-- Initial VM state of the block program. -/
def blkInit (hga : Bool) : Option (VMState Int) :=
  mkInit blkHeap [2, 5] 5 6 4 7 hga

/-- Chunk of `fun f(a, b) { return a; }` — arity 2. -/
def fChunk : Chunk Int :=
  ⟨[Op.toByte .GET_LOCAL, 1, Op.toByte .RETURN, Op.toByte .NIL, Op.toByte .RETURN],
   List.replicate 5 1, []⟩

/-- Top-level chunk of `fun f(a, b) { return a; } f(1);`. Constants:
0,2 = "f" (heap 1), 1 = the f function (heap 2), 3 = 1. -/
def fScriptChunk : Chunk Int :=
  ⟨[Op.toByte .CLOSURE, 1, Op.toByte .DEFINE_GLOBAL, 0,
    Op.toByte .GET_GLOBAL, 2, Op.toByte .CONSTANT, 3, Op.toByte .CALL, 1,
    Op.toByte .POP, Op.toByte .NIL, Op.toByte .RETURN],
   List.replicate 13 2,
   [Value.object 1, Value.object 2, Value.object 1, Value.number 1]⟩

/-- Heap of the `f(1)` program: script function (0), "f" (1), f function
(2), frame dummies (3, 4), "clock" (5), native (6), script closure (7). -/
def fHeap : List (Obj Int) :=
  [Obj.func ⟨0, fScriptChunk, 0, none⟩,
   strObj "f",
   Obj.func ⟨2, fChunk, 0, some 1⟩,
   Obj.func ⟨0, ⟨[], [], []⟩, 0, none⟩,
   Obj.closure 3 [] 0,
   strObj "clock",
   Obj.native clockStub,
   Obj.closure 0 [] 0]

/-- Initial VM state of the `f(1)` program (typical layout, `hga = false`). -/
def fInit : Option (VMState Int) := mkInit fHeap [1, 5] 5 6 4 7 false

/-- Chunk of `fun g(x) { return x; }` — arity 1. -/
def gChunk : Chunk Int :=
  ⟨[Op.toByte .GET_LOCAL, 1, Op.toByte .RETURN, Op.toByte .NIL, Op.toByte .RETURN],
   List.replicate 5 1, []⟩

/-- Top-level chunk of `fun g(x) { return x; } g();`. Constants:
0,2 = "g" (heap 1), 1 = the g function (heap 2). -/
def gScriptChunk : Chunk Int :=
  ⟨[Op.toByte .CLOSURE, 1, Op.toByte .DEFINE_GLOBAL, 0,
    Op.toByte .GET_GLOBAL, 2, Op.toByte .CALL, 0,
    Op.toByte .POP, Op.toByte .NIL, Op.toByte .RETURN],
   List.replicate 11 2, [Value.object 1, Value.object 2, Value.object 1]⟩

/-- Heap of the `g()` program. -/
def gHeap : List (Obj Int) :=
  [Obj.func ⟨0, gScriptChunk, 0, none⟩,
   strObj "g",
   Obj.func ⟨1, gChunk, 0, some 1⟩,
   Obj.func ⟨0, ⟨[], [], []⟩, 0, none⟩,
   Obj.closure 3 [] 0,
   strObj "clock",
   Obj.native clockStub,
   Obj.closure 0 [] 0]

/-- Initial VM state of the `g()` program (typical layout, `hga = false`). -/
def gInit : Option (VMState Int) := mkInit gHeap [1, 5] 5 6 4 7 false

/-! ### Table operation sequences (for the reachability claims) -/

/-- A `set` or `delete` request against a `Table`. -/
inductive TblOp (α : Type) where
  | set (k : Nat) (v : Value α) : TblOp α
  | del (k : Nat) : TblOp α

/-- Apply a finite sequence of `set`/`delete` operations starting from
`Table::new`; `none` when any of them panics or fails to terminate. -/
def applyOps {α : Type} (hashOf : Nat → Option Nat) (ops : List (TblOp α)) :
    Option (Table α) :=
  ops.foldlM
    (fun t op =>
      match op with
      | .set k v => (Table.set hashOf t k v).map Prod.snd
      | .del k => (Table.delete hashOf t k).map Prod.snd)
    Table.new

/-- Keys for the C2 scenario: nine distinct string objects whose hashes
are their indices (any nine interned strings with these hash residues
mod 8 realise it; FNV-1a residues mod 8 of real strings cover all
classes). -/
def c2hash : Nat → Option Nat := fun id => some id

/-- The C2 operation sequence: fill six slots, tombstone all six, then
two further inserts land in the remaining true-empty slots — `count`
(decremented by `delete`) stays far below the 0.75 load threshold, so no
grow is triggered and no true-empty slot remains. -/
def c2ops : List (TblOp Int) :=
  [.set 0 (Value.number 0), .set 1 (Value.number 0), .set 2 (Value.number 0),
   .set 3 (Value.number 0), .set 4 (Value.number 0), .set 5 (Value.number 0),
   .del 0, .del 1, .del 2, .del 3, .del 4, .del 5,
   .set 6 (Value.number 0), .set 7 (Value.number 0)]

/-- The single key and hash of the C3 scenario. -/
def c3hash : Nat → Option Nat := fun _ => some 3

/-! ### The compiler's jump emission (`compiler/src/parser.rs`) -/

/-- `emit_jump` (`parser.rs` lines 817-821): emit the jump opcode and a
`0xff 0xff` placeholder; the returned value is `code.len() - 2`, the
offset of the first operand byte. -/
def emitJump (code : List Nat) (op : Nat) : List Nat × Nat :=
  (code ++ [op, 255, 255], code.length + 1)

/-- `patch_jump` (`parser.rs` lines 823-832):
`jump = (code.len() - offset - 2) as u16` (truncating), diagnosed as
"Too much code to jump over." exactly when the truncated value is 65535
(`jump >= u16::MAX` on a `u16`); the two big-endian bytes
`(jump >> 8) & 0xff` and `jump & 0xff` are written in place. Returns the
patched code and whether the diagnostic fired. -/
def patchJump (code : List Nat) (offset : Nat) : List Nat × Bool :=
  let jump := (code.length - offset - 2) % 65536
  ((code.set offset (jump / 256 % 256)).set (offset + 1) (jump % 256),
   decide (65535 ≤ jump))

/-- `emit_loop` (`parser.rs` lines 879-890): emit the opcode, then
`offset = (code.len() - loop_start + 2) as u16` (the usize subtraction
panics when `loop_start` exceeds the current length — `none`; the
`offset > u16::MAX` check is on a `u16` and can never fire), then the two
big-endian offset bytes. -/
def emitLoop (code : List Nat) (op loopStart : Nat) : Option (List Nat) :=
  let code := code ++ [op]
  if loopStart ≤ code.length then
    let off := (code.length - loopStart + 2) % 65536
    some (code ++ [off / 256 % 256, off % 256])
  else none

/-- The target arithmetic the disassembler prints for a jump
(`chunk.rs` lines 115-125, `jump_instruction`):
`offset as isize + 3 + sign * jump`. -/
def disasmJumpTarget (offset : Nat) (sign : Int) (jump : Nat) : Int :=
  (offset : Int) + 3 + sign * (jump : Int)

/-! ### Helper lemmas -/

theorem optMapM_spec {ι β : Type} (f : ι → Option β) :
    ∀ l : List ι, (∀ x ∈ l, (f x).isSome) →
      ∃ r, optMapM f l = some r ∧ r.length = l.length ∧
        ∀ j : Nat, r.get? j = (l.get? j).bind f := by
  intro l
  induction l with
  | nil => exact fun _ => ⟨[], rfl, rfl, fun j => by cases j <;> rfl⟩
  | cons x xs ih =>
    intro h
    obtain ⟨y, hy⟩ := Option.isSome_iff_exists.mp (h x (List.mem_cons_self x xs))
    obtain ⟨r, hr, hlen, hget⟩ := ih (fun z hz => h z (List.mem_cons_of_mem x hz))
    refine ⟨y :: r, by simp [optMapM, hy, hr], by simpa using hlen, ?_⟩
    intro j
    cases j with
    | zero => simp [hy]
    | succ j => simpa using hget j

theorem closeUpvaluesAux_inv {α : Type} :
    ∀ (n : Nat) (st st' : VMState α), closeUpvaluesAux st n = some st' →
      st'.stack = st.stack ∧ st'.frames = st.frames ∧ st'.frameCount = st.frameCount ∧
      st'.globals = st.globals ∧ st'.strings = st.strings ∧ st'.output = st.output := by
  intro n
  induction n with
  | zero => intro st st' h; simp [closeUpvaluesAux] at h
  | succ n ih =>
    intro st st' h
    rw [closeUpvaluesAux] at h
    split at h
    · split at h
      · cases h; exact ⟨rfl, rfl, rfl, rfl, rfl, rfl⟩
      · split at h
        · obtain ⟨h1, h2, h3, h4, h5, h6⟩ := ih _ _ h
          exact ⟨h1, h2, h3, h4, h5, h6⟩
        · cases h
    · cases h; exact ⟨rfl, rfl, rfl, rfl, rfl, rfl⟩

theorem findEntrySlotAux_succ {α : Type} (entries : List (Entry α)) (capacity key i : Nat)
    (ts : Option Nat) (n : Nat) :
    findEntrySlotAux entries capacity key i ts (n + 1) =
      match entries.get? i with
      | none => none
      | some e =>
        match e.key with
        | none =>
          if e.value.isNil then some (match ts with | some t => t | none => i)
          else findEntrySlotAux entries capacity key ((i + 1) % capacity)
            (match ts with | some t => some t | none => some i) n
        | some k =>
          if k = key then some i
          else findEntrySlotAux entries capacity key ((i + 1) % capacity) ts n := rfl

theorem findEntrySlotAux_none {α : Type} (entries : List (Entry α)) (capacity key : Nat)
    (hlen : entries.length = capacity)
    (h : ∀ e ∈ entries, (e.key = none → e.value.isNil = false) ∧ e.key ≠ some key) :
    ∀ (fuel index : Nat) (tombstone : Option Nat), index < capacity →
      findEntrySlotAux entries capacity key index tombstone fuel = none := by
  intro fuel
  induction fuel with
  | zero => intro i ts _; rfl
  | succ n ih =>
    intro i ts hi
    have hi' : i < entries.length := hlen ▸ hi
    have hcap : 0 < capacity := Nat.lt_of_le_of_lt (Nat.zero_le i) hi
    have hm := h _ (List.get_mem entries i hi')
    rw [findEntrySlotAux_succ, List.get?_eq_get hi']
    cases hk : (entries.get ⟨i, hi'⟩).key with
    | none =>
      have hv : (entries.get ⟨i, hi'⟩).value.isNil = false := hm.1 hk
      simp only [hk, hv]
      exact ih _ _ (Nat.mod_lt _ hcap)
    | some k =>
      have hk2 : ¬(k = key) := fun he => hm.2 (by rw [hk, he])
      simp only [hk, if_neg hk2]
      exact ih _ _ (Nat.mod_lt _ hcap)

theorem findStringAux_found {α : Type} (strOf : Nat → Option (String × Nat))
    (entries : List (Entry α)) (capacity : Nat) (buffer : String) (hash : Nat) :
    ∀ (fuel index k : Nat),
      findStringAux strOf entries capacity buffer hash index fuel = some (some k) →
      strOf k = some (buffer, hash) := by
  intro fuel
  induction fuel with
  | zero => intro i k h; simp [findStringAux] at h
  | succ n ih =>
    intro i k h
    rw [findStringAux.eq_def] at h
    simp only [] at h
    split at h
    · cases h
    · split at h
      · split at h
        · cases h
        · split at h
          · split at h
            · cases h
              simp_all
            · exact ih _ _ h
          · exact ih _ _ h
      · split at h
        · cases h
        · exact ih _ _ h

theorem valIsString_of_strOf {α : Type} (heap : List (Obj α)) (i : Nat) (p : String × Nat)
    (h : strOfHeap heap i = some p) : valIsString heap (Value.object i) = some true := by
  unfold strOfHeap at h
  split at h
  · rename_i heq
    simp [valIsString, ← List.get?_eq_getElem?, heq]
  · cases h

/-! ### Claim C2 -/

/-- The table reached by `c2ops`: six tombstones plus two live keys fill
all eight slots — no true-empty slot remains, yet `count = 2` keeps the
grow condition `4 * (count + 1) > 3 * 8` false. -/
def c2tab : Table Int :=
  ⟨[⟨none, Value.bool false⟩, ⟨none, Value.bool false⟩, ⟨none, Value.bool false⟩,
    ⟨none, Value.bool false⟩, ⟨none, Value.bool false⟩, ⟨none, Value.bool false⟩,
    ⟨some 6, Value.number 0⟩, ⟨some 7, Value.number 0⟩], 2, 8⟩

/-- C2: the probe loop does *not* terminate on every reachable table.
`c2ops` (fourteen `set`/`delete` operations from `Table::new`, with nine
keys hashing to 0,…,7,8) reaches `c2tab`, in which every slot is either a
tombstone or holds a key other than key 8 — probing for key 8 (which
starts at `8 % 8 = 0`) returns nothing for *any* number of iterations
(the Rust loop runs forever), and `Table::get` for key 8 diverges, where
the claim promises termination within `capacity` steps. The culprit is
`delete` decrementing `count`, which lets insertions consume every
true-empty slot without ever tripping the 0.75 load-factor growth. -/
theorem C2_probe_loop_diverges :
    applyOps c2hash c2ops = some c2tab ∧
    Table.get c2hash c2tab 8 = none ∧
    ∀ fuel : Nat, findEntrySlotAux c2tab.entries 8 8 0 none fuel = none := by
  refine ⟨by decide, rfl, fun fuel => ?_⟩
  exact findEntrySlotAux_none c2tab.entries 8 8 (by decide) (by decide) fuel 0 none (by decide)

/-! ### Claim C3 -/

/-- C3: `get(k)` after `set(k, v)` does *not* always return `Some(v)`
until `k` is overwritten or deleted. After `set 0 v`, `get 0` is
`Some v` and after `delete 0` it is `None` — but re-inserting the same
key into its own tombstone leaves `count = 0` (`delete` decremented it
and tombstone reuse does not re-increment), so the `count == 0` early
return of `get` reports the live key as absent. -/
theorem C3_reinserted_key_reported_absent :
    (applyOps c3hash [.set 0 (Value.number 7)]).map
        (fun t => Table.get c3hash t 0) = some (some (some (Value.number 7))) ∧
    (applyOps c3hash [.set 0 (Value.number 7), .del 0]).map
        (fun t => Table.get c3hash t 0) = some (some none) ∧
    (applyOps c3hash [.set 0 (Value.number 7), .del 0, .set 0 (Value.number 7)]).map
        (fun t => Table.get c3hash t 0) = some (some none) ∧
    (applyOps c3hash [.set 0 (Value.number 7), .del 0, .set 0 (Value.number 7)]).map
        (fun t => t.count) = some 0 :=
  ⟨rfl, rfl, rfl, rfl⟩

/-! ### Claim C1 -/

/-- C1 counterexample: in
`{ var i = 0; fun get() { return i; } i = 5; print get(); }` the closure
`get` captures stack slot 1 of the enclosing (script) frame; the enclosing
function then mutates that slot (`i = 5`, a `SET_LOCAL`) after capture.
The program prints `0`, not `5`, under either memory-layout assumption:
`capture_value` received the *value* of the slot and stored a copy in the
upvalue cell, so the closure does not observe mutations of the captured
stack slot — capture is copy-on-capture, refuting the claim (which
requires the closure to observe mutations made after capture). -/
theorem C1_counterexample_capture_copies_value :
    ((blkInit false).bind (runOutput nmInt 100) = some [Value.number 0] ∧
     (blkInit true).bind (runOutput nmInt 100) = some [Value.number 0]) ∧
    Value.number (0 : Int) ≠ Value.number 5 :=
  ⟨⟨rfl, rfl⟩, by decide⟩

/-- C1 (amended): the makeCounter program itself behaves as the claim's
test demands — `fun makeCounter() { var i = 0; fun inc() { i = i + 1;
return i; } return inc; } var c = makeCounter(); print c(); print c();`
prints `1` then `2` under either memory layout (the `clock` native is
never invoked in this run, so its behaviour is irrelevant): the *single*
returned closure reads and writes `i` exclusively through its one upvalue
cell (`GET_UPVALUE`/`SET_UPVALUE`), which does hold the running count —
even though the cell stores a copy made at capture time rather than
aliasing the stack slot. -/
theorem C1_make_counter_prints_one_then_two (hga : Bool) :
    (mcInit hga clockStub).bind (runOutput nmInt 100) =
      some [Value.number 1, Value.number 2] := by
  cases hga <;> rfl

/-! ### Claim C6 -/

/-- C6 counterexample: in the makeCounter run (typical layout
`hga = false`), after 7 steps the next instruction is makeCounter's
`RETURN`; the current frame has `base_slot = 1`, and the open-upvalues
list holds cell 13, captured from stack slot 2 — at/above the base slot.
The claim requires `RETURN` to close it; but after the `RETURN` executes
(step 8) the cell is still at the head of the open-upvalues list, still
open (`closed` never populated, nothing unlinked): `close_upvalue`
compares the heap cell's field address against a stack address, which is
false under the common layout, and even when it unlinks it never
repoints `location` at an owned copy (it copies the value onto itself). -/
theorem C6_counterexample_upvalue_left_open :
    ((mcInit false clockStub).bind (stepIter nmInt 7)).bind currentOpByte =
        some (Op.toByte .RETURN) ∧
    ((mcInit false clockStub).bind (stepIter nmInt 7)).bind curFrame =
        some ⟨11, 8, 1⟩ ∧
    ((mcInit false clockStub).bind (stepIter nmInt 7)).map VMState.openUpvalues =
        some (some 13) ∧
    ((mcInit false clockStub).bind (stepIter nmInt 8)).map VMState.openUpvalues =
        some (some 13) ∧
    ((mcInit false clockStub).bind (stepIter nmInt 8)).bind (fun st => st.heap.get? 13) =
        some (Obj.upval (Value.number 0) Value.nil none) :=
  ⟨rfl, rfl, rfl, rfl, rfl⟩

/-! ### Claim C4 -/

/-- C4 counterexample: two `StringObject::from_owned` calls (the
constructor concatenation uses) with the same fresh content and the same
intern table yield two *distinct* heap objects with equal contents —
`from_owned` consults the table but never inserts, so the second
construction cannot find the first. Pointer-identity equality (`EQUAL`)
consequently reports the two equal-content strings unequal, refuting
"two string values with equal contents always resolve to the same heap
slot". -/
theorem C4_counterexample_concat_not_deduplicated :
    stringFromOwned (nulTerm "xy") ([] : List (Obj Int)) Table.new =
      some (0, ([strObj "xy"] : List (Obj Int))) ∧
    stringFromOwned (nulTerm "xy") ([strObj "xy"] : List (Obj Int)) Table.new =
      some (1, ([strObj "xy", strObj "xy"] : List (Obj Int))) ∧
    (0 : Nat) ≠ 1 ∧
    valueEq nmInt (Value.object 0) (Value.object 1) = false :=
  ⟨rfl, rfl, by decide, rfl⟩

/-! ### Claim C5 (counterexample) -/

/-- C5 counterexample: running `fun f(a, b) { return a; } f(1);` — an
arity mismatch (2 expected, 1 supplied) — does not produce a reportable
runtime error: `run()` never returns at all. `VM::call` increments
`frame_count` before the arity check, so `runtime_error!`'s trace loop
starts at the just-claimed frame, whose never-initialised dummy closure
has an empty chunk; `chunk.lines[0]` indexes out of bounds and the
process panics (model: `stuck`, not `err`). After 4 steps the next
instruction is the `CALL`, and executing it panics. -/
theorem C5_counterexample_arity_error_panics :
    (fInit.bind (stepIter nmInt 4)).bind currentOpByte = some (Op.toByte .CALL) ∧
    (fInit.bind (stepIter nmInt 4)).map (step nmInt) = some StepRes.stuck ∧
    fInit.map (runFuel nmInt 100) = some Outcome.stuck :=
  ⟨rfl, rfl, rfl⟩

/-! ### Claim C9 (counterexample) -/

/-- C9 counterexample: the runtime error protocol is not honoured on
every detected runtime error. Running `fun g(x) { return x; } g();`
detects an arity mismatch, but instead of writing a trace line per live
frame, resetting the stack and failing `run()`, the trace synthesis
itself panics (the incremented `frame_count` puts the uninitialised
dummy frame — empty chunk, empty `lines` — in range), aborting the
process: the run ends `stuck`, not `failed`. -/
theorem C9_counterexample_trace_synthesis_panics :
    (gInit.bind (stepIter nmInt 3)).bind currentOpByte = some (Op.toByte .CALL) ∧
    (gInit.bind (stepIter nmInt 3)).map (step nmInt) = some StepRes.stuck ∧
    gInit.map (runFuel nmInt 100) = some Outcome.stuck :=
  ⟨rfl, rfl, rfl⟩

/-! ### Claim C10 -/

theorem peekV_lt {α : Type} {st : VMState α} {d : Nat} {v : Value α}
    (h : peekV st d = some v) : d < st.stack.length := by
  by_cases hd : d < st.stack.length
  · exact hd
  · simp [peekV, hd] at h

/-- C10: when `CALL`'s callee is a native object, the VM invokes the host
function with exactly the caller-supplied argument count `argc` — no
arity check exists for natives (for *any* `argc` the dispatch succeeds) —
passing a view of the top `argc` stack values; the callee and arguments
are removed, the single returned value is pushed, and no call frame is
pushed (`frames` and `frameCount` are untouched in the result state). -/
theorem C10_native_call_bypasses_arity {α : Type} (nm : NumOps α) (st st1 : VMState α)
    (argc nid : Nat) (f : Nat → List (Value α) → Value α)
    (hrb : readByte st = some (argc, st1))
    (hpeek : peekV st1 argc = some (Value.object nid))
    (hnat : st1.heap.get? nid = some (Obj.native f))
    (hlen : st1.stack.length ≤ STACK_MAX) :
    exec nm Op.CALL st = .ok { st1 with
      stack := st1.stack.take (st1.stack.length - argc - 1) ++
        [f argc (st1.stack.drop (st1.stack.length - argc))] } := by
  have hlt : argc < st1.stack.length := peekV_lt hpeek
  simp only [exec, execCall, hrb, callValue, hpeek, hnat]
  rw [if_pos hlt]
  simp only [pushV, List.length_take]
  rw [if_pos (by omega : min (st1.stack.length - argc - 1) st1.stack.length < STACK_MAX)]

/-- Witness state for C10: frame 0 executes `CALL 1` (ip at the operand);
the stack holds the script closure, the native callee and one argument. -/
def c10wNative : Nat → List (Value Int) → Value Int := fun _ _ => Value.number 42

/-- Witness state for C10 before the operand read. -/
def c10wSt : VMState Int :=
  { stack := [Value.object 1, Value.object 2, Value.number 7],
    frames := List.replicate 64 (⟨1, 1, 0⟩ : Frame),
    frameCount := 1,
    heap := [Obj.func ⟨0, ⟨[Op.toByte .CALL, 1], [1, 1], []⟩, 0, none⟩,
             Obj.closure 0 [] 0,
             Obj.native c10wNative],
    strings := Table.new, globals := Table.new,
    openUpvalues := none, output := [], hga := false }

/-- Witness state for C10 after the operand read. -/
def c10w1 : VMState Int := { c10wSt with frames := c10wSt.frames.set 0 ⟨1, 2, 0⟩ }

theorem C10_native_call_bypasses_arity_witness :
    (readByte c10wSt = some (1, c10w1) ∧ peekV c10w1 1 = some (Value.object 2) ∧
     c10w1.heap.get? 2 = some (Obj.native c10wNative) ∧ c10w1.stack.length ≤ STACK_MAX) ∧
    exec nmInt Op.CALL c10wSt = .ok { c10w1 with
      stack := c10w1.stack.take (c10w1.stack.length - 1 - 1) ++
        [c10wNative 1 (c10w1.stack.drop (c10w1.stack.length - 1))] } :=
  ⟨⟨rfl, rfl, rfl, by decide⟩,
   C10_native_call_bypasses_arity nmInt c10wSt c10w1 1 2 c10wNative rfl rfl rfl (by decide)⟩

/-! ### Claim C5 (amended theorem) -/

/-- C5 (amended): executing `CALL argc` on a closure callee pushes a new
frame with `ip = 0` and `base_slot = stack_top - argc - 1` when `argc`
equals the function's arity and fewer than `FRAMES_MAX` frames are live;
when `FRAMES_MAX` frames are live it enters the runtime-error routine
with "Stack overflow."; when `argc` differs from the arity it enters the
runtime-error routine with the message naming expected and actual counts,
but only *after* `frame_count` has been incremented — the routine prints
the message and then synthesizes the trace over the incremented frame
range, which panics (aborting the process, `run()` never returns) when
the frame at the new depth was never initialised, and otherwise resets
the stack and fails `run()`. In no error case does a successful call
occur. -/
theorem C5_call_closure_semantics {α : Type} (nm : NumOps α) (st st1 : VMState α)
    (argc cid fid n : Nat) (ups : List (Option Nat)) (fd : FuncData α)
    (hrb : readByte st = some (argc, st1))
    (hpeek : peekV st1 argc = some (Value.object cid))
    (hclos : st1.heap.get? cid = some (Obj.closure fid ups n))
    (hfunc : st1.heap.get? fid = some (Obj.func fd))
    (hframes : st1.frames.length = FRAMES_MAX) :
    (st1.frameCount < FRAMES_MAX → argc = fd.arity →
      exec nm Op.CALL st = .ok { st1 with
        frameCount := st1.frameCount + 1,
        frames := st1.frames.set st1.frameCount
          ⟨cid, 0, st1.stack.length - argc - 1⟩ }) ∧
    (st1.frameCount < FRAMES_MAX → argc ≠ fd.arity →
      exec nm Op.CALL st =
        mkRuntimeError { st1 with frameCount := st1.frameCount + 1 }
          ("Expected " ++ toString fd.arity ++ " arguments but got " ++ toString argc)) ∧
    (st1.frameCount = FRAMES_MAX →
      exec nm Op.CALL st = mkRuntimeError st1 "Stack overflow.") := by
  refine ⟨?_, ?_, ?_⟩
  · intro hfc heq
    simp only [exec, execCall, hrb, callValue, hpeek, hclos, callClosure]
    rw [if_neg (Nat.ne_of_lt hfc)]
    simp only [hclos, hfunc, Nat.add_sub_cancel]
    rw [if_pos (by rw [hframes]; omega)]
    rw [if_neg (fun hn => hn heq)]
  · intro hfc hne
    simp only [exec, execCall, hrb, callValue, hpeek, hclos, callClosure]
    rw [if_neg (Nat.ne_of_lt hfc)]
    simp only [hclos, hfunc, Nat.add_sub_cancel]
    rw [if_pos (by rw [hframes]; omega)]
    rw [if_pos hne]
  · intro hfc
    simp only [exec, execCall, hrb, callValue, hpeek, hclos, callClosure]
    rw [if_pos hfc]

/-- Witness state for C5: frame 0 executes `CALL 0` (ip at the operand);
the callee (a closure of arity 0) is on top of the stack. -/
def c5wSt : VMState Int :=
  { stack := [Value.object 1],
    frames := List.replicate 64 (⟨1, 1, 0⟩ : Frame),
    frameCount := 1,
    heap := [Obj.func ⟨0, ⟨[Op.toByte .CALL, 0], [1, 1], []⟩, 0, none⟩,
             Obj.closure 0 [] 0],
    strings := Table.new, globals := Table.new,
    openUpvalues := none, output := [], hga := false }

/-- Witness state for C5 after the operand read. -/
def c5w1 : VMState Int := { c5wSt with frames := c5wSt.frames.set 0 ⟨1, 2, 0⟩ }

theorem C5_call_closure_semantics_witness :
    (readByte c5wSt = some (0, c5w1) ∧ peekV c5w1 0 = some (Value.object 1) ∧
     c5w1.heap.get? 1 = some (Obj.closure 0 [] 0) ∧
     c5w1.heap.get? 0 = some (Obj.func ⟨0, ⟨[Op.toByte .CALL, 0], [1, 1], []⟩, 0, none⟩) ∧
     c5w1.frames.length = FRAMES_MAX ∧ c5w1.frameCount < FRAMES_MAX) ∧
    exec nmInt Op.CALL c5wSt = .ok { c5w1 with
      frameCount := c5w1.frameCount + 1,
      frames := c5w1.frames.set c5w1.frameCount ⟨1, 0, c5w1.stack.length - 0 - 1⟩ } :=
  ⟨⟨rfl, rfl, rfl, rfl, by decide, by decide⟩,
   (C5_call_closure_semantics nmInt c5wSt c5w1 0 1 0 0 []
      ⟨0, ⟨[Op.toByte .CALL, 0], [1, 1], []⟩, 0, none⟩
      rfl rfl rfl rfl (by decide)).1 (by decide) rfl⟩

/-! ### Claim C7 -/

theorem popV_of_peek {α : Type} {st : VMState α} {v0 v1 : Value α}
    (h0 : peekV st 0 = some v0) (h1 : peekV st 1 = some v1) :
    popV st = some (v0, { st with stack := st.stack.dropLast }) ∧
    popV { st with stack := st.stack.dropLast } =
      some (v1, { st with stack := st.stack.take (st.stack.length - 2) }) := by
  have hl1 : 1 < st.stack.length := peekV_lt h1
  have h0' : st.stack.get? (st.stack.length - 1) = some v0 := by
    have h := h0
    simp only [peekV, if_pos (show (0:Nat) < st.stack.length by omega)] at h
    simpa using h
  have h1' : st.stack.get? (st.stack.length - 2) = some v1 := by
    have h := h1
    simp only [peekV, if_pos hl1] at h
    rwa [Nat.sub_sub] at h
  have hdd : st.stack.dropLast.dropLast = st.stack.take (st.stack.length - 2) := by
    rw [List.dropLast_eq_take, List.dropLast_eq_take, List.length_take, List.take_take]
    congr 1
    simp [Nat.min_def]
    omega
  constructor
  · simp only [popV, List.getLast?_eq_get?, h0']
  · simp only [popV, List.getLast?_eq_get?, List.length_dropLast]
    rw [List.dropLast_eq_take, List.get?_take (by omega : st.stack.length - 1 - 1 < st.stack.length - 1),
        Nat.sub_sub, h1']
    rw [← List.dropLast_eq_take, hdd]

theorem findString_found {α : Type} {strOf : Nat → Option (String × Nat)} {t : Table α}
    {buffer : String} {h k : Nat} (hf : t.findString strOf buffer h = some (some k)) :
    strOf k = some (buffer, h) := by
  unfold Table.findString at hf
  split at hf
  · cases hf
  · split at hf
    · cases hf
    · exact findStringAux_found strOf t.entries t.capacity buffer h _ _ _ hf

/-- C7: executing `ADD` (i) with two string operands pops both and pushes
a string object whose contents are their concatenation (the NUL-stripped
chars of the left then the right operand, re-terminated) — the interned
object when the contents were already interned, a fresh allocation
otherwise — leaving the intern table itself unchanged; (ii) with two
number operands pops both and pushes their sum under the double
arithmetic `nm.add`; (iii) with any other operand-type combination enters
the runtime-error routine with "Operands must be two numbers or two
strings." (which prints, traces, resets the stack and fails `run()`). -/
theorem C7_add_semantics {α : Type} (nm : NumOps α) (st : VMState α) (v0 v1 : Value α)
    (h0 : peekV st 0 = some v0) (h1 : peekV st 1 = some v1)
    (hlen : st.stack.length ≤ STACK_MAX) :
    (∀ (ia ib : Nat) (achars bchars : String) (ah bh : Nat) (fnd : Option Nat),
      v1 = Value.object ia → v0 = Value.object ib →
      strOfHeap st.heap ia = some (achars, ah) →
      strOfHeap st.heap ib = some (bchars, bh) →
      st.strings.findString (strOfHeap st.heap)
        ((achars.dropRight 1 ++ bchars.dropRight 1).push (Char.ofNat 0))
        (hashString ((achars.dropRight 1 ++ bchars.dropRight 1).push (Char.ofNat 0))) =
          some fnd →
      ∃ (rid : Nat) (heap' : List (Obj α)),
        exec nm Op.ADD st = .ok { st with
          stack := st.stack.take (st.stack.length - 2) ++ [Value.object rid],
          heap := heap' } ∧
        strOfHeap heap' rid =
          some ((achars.dropRight 1 ++ bchars.dropRight 1).push (Char.ofNat 0),
            hashString ((achars.dropRight 1 ++ bchars.dropRight 1).push (Char.ofNat 0)))) ∧
    (∀ (x y : α), v1 = Value.number x → v0 = Value.number y →
      exec nm Op.ADD st = .ok { st with
        stack := st.stack.take (st.stack.length - 2) ++ [Value.number (nm.add x y)] }) ∧
    (∀ (s0 s1 : Bool), valIsString st.heap v0 = some s0 → valIsString st.heap v1 = some s1 →
      ¬(s0 = true ∧ s1 = true) → ¬(v0.isNumber = true ∧ v1.isNumber = true) →
      exec nm Op.ADD st = mkRuntimeError st "Operands must be two numbers or two strings.") := by
  have hl1 : 1 < st.stack.length := peekV_lt h1
  have htake : (st.stack.take (st.stack.length - 2)).length < STACK_MAX := by
    rw [List.length_take]
    omega
  refine ⟨?_, ?_, ?_⟩
  · intro ia ib achars bchars ah bh fnd hv1 hv0 ha hb hfind
    subst hv1; subst hv0
    obtain ⟨hp0, hp1⟩ := popV_of_peek h0 h1
    simp only [exec, execAdd, h0, h1, valIsString_of_strOf _ _ _ ha,
      valIsString_of_strOf _ _ _ hb, Bool.and_self, if_pos rfl, concatenate, hp0, hp1, ha, hb]
    simp only [stringFromOwned]
    cases fnd with
    | some k =>
      rw [hfind]
      refine ⟨k, st.heap, ?_, findString_found hfind⟩
      simp only [pushV, if_pos htake]
      simp
    | none =>
      rw [hfind]
      refine ⟨st.heap.length,
        st.heap ++ [Obj.str ((achars.dropRight 1 ++ bchars.dropRight 1).push (Char.ofNat 0))
          (hashString ((achars.dropRight 1 ++ bchars.dropRight 1).push (Char.ofNat 0)))],
        ?_, ?_⟩
      · simp only [pushV, if_pos htake]
        simp
      · simp only [strOfHeap, List.get?_concat_length]
  · intro x y hv1 hv0
    subst hv1; subst hv0
    obtain ⟨hp0, hp1⟩ := popV_of_peek h0 h1
    simp only [exec, execAdd, h0, h1, valIsString, Bool.and_false, Bool.false_and,
      Value.isNumber, Bool.and_self, hp0, hp1]
    simp only [pushV, if_pos htake]
    simp
  · intro s0 s1 hs0 hs1 hns hnn
    have hb : (s0 && s1) = false := by
      cases s0 <;> cases s1 <;> simp_all
    have hn : (v0.isNumber && v1.isNumber) = false := by
      cases hx : v0.isNumber <;> cases hy : v1.isNumber <;> simp_all
    simp only [exec, execAdd, h0, h1, hs0, hs1, hb, hn]
    simp

/-- Witness state for C7: stack holds the numbers 2 and 3. -/
def c7wSt : VMState Int :=
  { stack := [Value.number 2, Value.number 3],
    frames := List.replicate 64 (⟨0, 0, 0⟩ : Frame), frameCount := 0,
    heap := [], strings := Table.new, globals := Table.new,
    openUpvalues := none, output := [], hga := false }

theorem C7_add_semantics_witness :
    (peekV c7wSt 0 = some (Value.number 3) ∧ peekV c7wSt 1 = some (Value.number 2) ∧
     c7wSt.stack.length ≤ STACK_MAX) ∧
    exec nmInt Op.ADD c7wSt = .ok { c7wSt with
      stack := c7wSt.stack.take (c7wSt.stack.length - 2) ++ [Value.number (nmInt.add 2 3)] } :=
  ⟨⟨rfl, rfl, by decide⟩,
   (C7_add_semantics nmInt c7wSt (Value.number 3) (Value.number 2) rfl rfl
      (by decide)).2.1 2 3 rfl rfl⟩

/-! ### Claim C6 (amended theorem) -/

/-- C6 (amended): executing `RETURN` pops the return value, runs the
upvalue-closing walk `close_upvalue` (which leaves the machine unchanged
except for its heap cells and the open-upvalues head: under the common
layout it unlinks nothing, and what it unlinks keeps its `location` value,
merely copied into `closed` — it does not close cells by the frame-base
criterion the original claim states), and pops the frame; if no frames
remain the program halts successfully (after popping the script slot),
otherwise the operand stack is truncated to the returning frame's
`base_slot` and the return value is pushed — every stack slot below the
base slot is unchanged. -/
theorem C6_return_semantics {α : Type} (nm : NumOps α) (st st' : VMState α)
    (result : Value α) (fr : Frame)
    (hpop : st.stack.getLast? = some result)
    (hfr : curFrame st = some fr)
    (hclose : closeUpvalues { st with stack := st.stack.dropLast } = some st')
    (hslots : fr.slots < st.stack.length)
    (hlen : st.stack.length ≤ STACK_MAX) :
    st'.stack = st.stack.dropLast ∧ st'.frames = st.frames ∧
    st'.frameCount = st.frameCount ∧
    (st.frameCount = 1 → 2 ≤ st.stack.length →
      exec nm Op.RETURN st =
        .halt { st' with frameCount := 0, stack := st.stack.dropLast.dropLast }) ∧
    (2 ≤ st.frameCount →
      exec nm Op.RETURN st = .ok { st' with
        frameCount := st.frameCount - 1,
        stack := st.stack.take fr.slots ++ [result] } ∧
      ∀ j, j < fr.slots → (st.stack.take fr.slots ++ [result]).get? j = st.stack.get? j) := by
  obtain ⟨hs, hf, hc, -, -, -⟩ := closeUpvaluesAux_inv _ _ _ hclose
  dsimp only at hs hf hc
  have htt : st.stack.dropLast.take fr.slots = st.stack.take fr.slots := by
    rw [List.dropLast_eq_take, List.take_take]
    congr 1
    simp [Nat.min_def]
    omega
  refine ⟨hs, hf, hc, ?_, ?_⟩
  · intro h1 h2
    simp only [exec, execReturn, popV, hpop]
    rw [show curFrame { st with stack := st.stack.dropLast } = some fr from hfr]
    rw [hclose]
    dsimp only
    rw [hc, h1]
    simp only [if_pos rfl]
    cases hx : st'.stack.getLast? with
    | none =>
      exfalso
      rw [hs, List.getLast?_eq_getElem?, List.getElem?_eq_none_iff, List.length_dropLast] at hx
      omega
    | some x =>
      simp only [hx]
      simp [hs]
  · intro h2
    constructor
    · simp only [exec, execReturn, popV, hpop]
      rw [show curFrame { st with stack := st.stack.dropLast } = some fr from hfr]
      rw [hclose]
      dsimp only
      rw [hc]
      rw [if_neg (by omega : ¬(st.frameCount - 1 = 0))]
      simp only [pushV, hs, htt, List.length_take]
      rw [if_pos (by omega : min fr.slots st.stack.length < STACK_MAX)]
    · intro j hj
      rw [List.get?_append (by rw [List.length_take]; omega),
        List.get?_take (by omega : j < fr.slots)]

/-- Witness state for C6: frame 1 (base slot 1) is about to `RETURN` the
number 7; no upvalues are open. -/
def c6wSt : VMState Int :=
  { stack := [Value.object 1, Value.number 9, Value.number 7],
    frames := (List.replicate 64 (⟨1, 0, 0⟩ : Frame)).set 1 ⟨1, 3, 1⟩,
    frameCount := 2,
    heap := [Obj.func ⟨0, ⟨[Op.toByte .RETURN], [1], []⟩, 0, none⟩, Obj.closure 0 [] 0],
    strings := Table.new, globals := Table.new,
    openUpvalues := none, output := [], hga := false }

/-- The C6 witness state after the return value is popped and the (empty)
closing walk has run. -/
def c6wSt' : VMState Int := { c6wSt with stack := c6wSt.stack.dropLast }

theorem C6_return_semantics_witness :
    (c6wSt.stack.getLast? = some (Value.number 7) ∧ curFrame c6wSt = some ⟨1, 3, 1⟩ ∧
     closeUpvalues { c6wSt with stack := c6wSt.stack.dropLast } = some c6wSt' ∧
     (1 : Nat) < c6wSt.stack.length ∧ c6wSt.stack.length ≤ STACK_MAX ∧
     2 ≤ c6wSt.frameCount) ∧
    exec nmInt Op.RETURN c6wSt = .ok { c6wSt' with
      frameCount := c6wSt.frameCount - 1,
      stack := c6wSt.stack.take 1 ++ [Value.number 7] } :=
  ⟨⟨rfl, rfl, rfl, by decide, by decide, by decide⟩,
   ((C6_return_semantics nmInt c6wSt c6wSt' (Value.number 7) ⟨1, 3, 1⟩ rfl rfl rfl
      (by decide) (by decide)).2.2.2.2 (by decide)).1⟩

/-! ### Claim C9 (amended theorem) -/

/-- C9 (amended): whenever the runtime-error routine is entered and every
live frame's trace line is constructible (its closure and function
dereference, `lines[ip]` is in bounds — true during normal dispatch, but
violated by the arity-mismatch path, which first increments `frame_count`
over a possibly never-initialised frame), the routine yields the message
plus a stack trace with exactly one line per live frame, ordered from the
innermost frame (`frame_count - 1`) to the outermost (frame 0), each line
carrying the frame's source line and its function name (`none` printed as
"script" for nameless functions); the operand stack is reset to empty,
and a step that produced such an error makes `run()` return the error
immediately — execution never resumes. -/
theorem C9_runtime_error_protocol {α : Type} (nm : NumOps α) (st : VMState α) (msg : String)
    (h : ∀ i, i < st.frameCount → (traceLine st.heap st.frames i).isSome) :
    ∃ tr, mkRuntimeError st msg = .err msg tr (resetStack st) ∧
      (resetStack st).stack = [] ∧
      tr.length = st.frameCount ∧
      (∀ j, j < st.frameCount →
        tr.get? j = traceLine st.heap st.frames (st.frameCount - 1 - j)) ∧
      (∀ (fuel : Nat) (st₀ s' : VMState α) (tr₀ : List (Nat × Option String)),
        step nm st₀ = .err msg tr₀ s' → runFuel nm (fuel + 1) st₀ = .failed msg tr₀ s') := by
  obtain ⟨tr, htr, hlen, hget⟩ := optMapM_spec (traceLine st.heap st.frames)
    (List.range st.frameCount).reverse
    (fun x hx => h x (List.mem_range.mp (List.mem_reverse.mp hx)))
  refine ⟨tr, ?_, rfl, by simpa using hlen, ?_, ?_⟩
  · unfold mkRuntimeError mkTrace
    rw [htr]
  · intro j hj
    rw [hget j, List.get?_reverse (by simpa using hj),
      List.length_range, List.get?_range (by omega)]
    rfl
  · intro fuel st₀ s' tr₀ hstep
    simp [runFuel, hstep]

/-- Witness state for C9: one live frame whose trace line resolves
(line 7, nameless function — a "script" line). -/
def c9wSt : VMState Int :=
  { stack := [Value.number 1],
    frames := List.replicate 64 (⟨1, 0, 0⟩ : Frame), frameCount := 1,
    heap := [Obj.func ⟨0, ⟨[Op.toByte .RETURN], [7], []⟩, 0, none⟩, Obj.closure 0 [] 0],
    strings := Table.new, globals := Table.new,
    openUpvalues := none, output := [], hga := false }

theorem C9_runtime_error_protocol_witness :
    (∀ i, i < c9wSt.frameCount → (traceLine c9wSt.heap c9wSt.frames i).isSome) ∧
    ∃ tr, mkRuntimeError c9wSt "boom" = .err "boom" tr (resetStack c9wSt) ∧
      (resetStack c9wSt).stack = [] ∧
      tr.length = c9wSt.frameCount ∧
      (∀ j, j < c9wSt.frameCount →
        tr.get? j = traceLine c9wSt.heap c9wSt.frames (c9wSt.frameCount - 1 - j)) ∧
      (∀ (fuel : Nat) (st₀ s' : VMState Int) (tr₀ : List (Nat × Option String)),
        step nmInt st₀ = .err "boom" tr₀ s' →
          runFuel nmInt (fuel + 1) st₀ = .failed "boom" tr₀ s') :=
  ⟨by decide, C9_runtime_error_protocol nmInt c9wSt "boom" (by decide)⟩

/-! ### Claim C8 -/

theorem get?_set_self_of_lt {β : Type} (l : List β) (i : Nat) (a : β) (h : i < l.length) :
    (l.set i a).get? i = some a := by
  rw [List.get?_set_eq, List.get?_eq_get h]
  rfl

theorem curFrame_withFrame {α : Type} {st : VMState α} {fr : Frame} (fr' : Frame)
    (hfr : curFrame st = some fr) : curFrame (withFrame st fr') = some fr' := by
  unfold curFrame at hfr
  by_cases h0 : st.frameCount = 0
  · rw [if_pos h0] at hfr; cases hfr
  · rw [if_neg h0] at hfr
    have hlt : st.frameCount - 1 < st.frames.length := by
      by_contra hge
      rw [List.get?_eq_none.mpr (by omega)] at hfr
      cases hfr
    unfold curFrame withFrame
    dsimp only
    rw [if_neg h0]
    exact get?_set_self_of_lt _ _ _ hlt

theorem withFrame_withFrame {α : Type} (st : VMState α) (a b : Frame) :
    withFrame (withFrame st a) b = withFrame st b := by
  unfold withFrame
  dsimp only
  rw [List.set_set]

theorem readShortSt_of {α : Type} {st : VMState α} {fr : Frame} {fd : FuncData α} {v : Nat}
    (hfr : curFrame st = some fr) (hffd : frameFuncData st fr = some fd)
    (hra : readShortAt fd.chunk.code fr.ip = some v) :
    readShortSt st = some (v, withFrame st { fr with ip := fr.ip + 2 }) := by
  simp [readShortSt, hfr, hffd, hra]

/-- C8: jump operands are big-endian 16-bit relative displacements and
every consumer agrees with what the compiler wrote. For a forward jump
emitted by `emit_jump` at the end of `code₀` and patched by `patch_jump`
after `rest` more bytes were emitted (displacement `rest.length`, fitting
in 16 bits): the "Too much code" diagnostic does not fire; the VM's
`read_short` decode of the patched operand bytes is exactly `rest.length`;
the disassembler's target `opcode-offset + 3 + jump` equals the patch
site (the length of the code at patch time); and executing `JUMP` (or
`JUMP_IF_FALSE` with a falsey top of stack) from the operand position
sets the instruction pointer to exactly that target. For a backward jump
emitted by `emit_loop` toward `loopStart`: the stored displacement is
`code.length + 3 - loopStart`, `read_short` decodes it back, the
disassembler's `opcode-offset + 3 - jump` equals `loopStart`, and
executing `LOOP` from the operand position sets the instruction pointer
to exactly `loopStart`. -/
theorem C8_jump_encoding_round_trip {α : Type} (nm : NumOps α)
    (code₀ rest : List Nat) (opJ : Nat) (c3 : List Nat) (opL ls : Nat)
    (hfit : rest.length < 65535) (hls : ls ≤ c3.length + 1)
    (hoff : c3.length + 3 - ls < 65536) :
    (patchJump ((emitJump code₀ opJ).1 ++ rest) (emitJump code₀ opJ).2).2 = false ∧
    readShortAt (patchJump ((emitJump code₀ opJ).1 ++ rest) (emitJump code₀ opJ).2).1
      (emitJump code₀ opJ).2 = some rest.length ∧
    disasmJumpTarget ((emitJump code₀ opJ).2 - 1) 1 rest.length =
      (((emitJump code₀ opJ).1 ++ rest).length : Int) ∧
    (∀ (st : VMState α) (fr : Frame) (fd : FuncData α),
      curFrame st = some fr → fr.ip = (emitJump code₀ opJ).2 →
      frameFuncData st fr = some fd →
      fd.chunk.code = (patchJump ((emitJump code₀ opJ).1 ++ rest) (emitJump code₀ opJ).2).1 →
      exec nm Op.JUMP st =
        .ok (withFrame st ⟨fr.closureId, ((emitJump code₀ opJ).1 ++ rest).length, fr.slots⟩)) ∧
    (∀ (st : VMState α) (fr : Frame) (fd : FuncData α) (v : Value α),
      curFrame st = some fr → fr.ip = (emitJump code₀ opJ).2 →
      frameFuncData st fr = some fd →
      fd.chunk.code = (patchJump ((emitJump code₀ opJ).1 ++ rest) (emitJump code₀ opJ).2).1 →
      peekV st 0 = some v → v.isFalsey = true →
      exec nm Op.JUMP_IF_FALSE st =
        .ok (withFrame st ⟨fr.closureId, ((emitJump code₀ opJ).1 ++ rest).length, fr.slots⟩)) ∧
    emitLoop c3 opL ls = some ((c3 ++ [opL]) ++
      [(c3.length + 3 - ls) / 256 % 256, (c3.length + 3 - ls) % 256]) ∧
    readShortAt ((c3 ++ [opL]) ++
      [(c3.length + 3 - ls) / 256 % 256, (c3.length + 3 - ls) % 256]) (c3.length + 1) =
      some (c3.length + 3 - ls) ∧
    disasmJumpTarget c3.length (-1) (c3.length + 3 - ls) = (ls : Int) ∧
    (∀ (st : VMState α) (fr : Frame) (fd : FuncData α),
      curFrame st = some fr → fr.ip = c3.length + 1 →
      frameFuncData st fr = some fd →
      fd.chunk.code = (c3 ++ [opL]) ++
        [(c3.length + 3 - ls) / 256 % 256, (c3.length + 3 - ls) % 256] →
      exec nm Op.LOOP st = .ok (withFrame st ⟨fr.closureId, ls, fr.slots⟩)) := by
  have hlc2 : ((emitJump code₀ opJ).1 ++ rest).length = code₀.length + 3 + rest.length := by
    simp [emitJump]
    omega
  have ho : (emitJump code₀ opJ).2 = code₀.length + 1 := rfl
  have hjv : (((emitJump code₀ opJ).1 ++ rest).length - (emitJump code₀ opJ).2 - 2) % 65536 =
      rest.length := by
    rw [hlc2, ho]
    have : code₀.length + 3 + rest.length - (code₀.length + 1) - 2 = rest.length := by omega
    rw [this, Nat.mod_eq_of_lt (by omega)]
  have hrs : readShortAt (patchJump ((emitJump code₀ opJ).1 ++ rest) (emitJump code₀ opJ).2).1
      (emitJump code₀ opJ).2 = some rest.length := by
    simp only [patchJump, hjv]
    unfold readShortAt
    rw [List.get?_set_ne _ _ (by omega : (emitJump code₀ opJ).2 + 1 ≠ (emitJump code₀ opJ).2),
      get?_set_self_of_lt _ _ _ (by rw [hlc2, ho]; omega),
      get?_set_self_of_lt _ _ _ (by rw [List.length_set, hlc2, ho]; omega)]
    dsimp only
    have : rest.length / 256 % 256 * 256 + rest.length % 256 = rest.length := by omega
    rw [this]
  have hoffv : (c3.length + 1 - ls + 2) % 65536 = c3.length + 3 - ls := by
    have : c3.length + 1 - ls + 2 = c3.length + 3 - ls := by omega
    rw [this, Nat.mod_eq_of_lt hoff]
  have hemit : emitLoop c3 opL ls = some ((c3 ++ [opL]) ++
      [(c3.length + 3 - ls) / 256 % 256, (c3.length + 3 - ls) % 256]) := by
    unfold emitLoop
    rw [if_pos (by simp; omega)]
    simp only [List.length_append, List.length_cons, List.length_nil, hoffv]
  have hrl : readShortAt ((c3 ++ [opL]) ++
      [(c3.length + 3 - ls) / 256 % 256, (c3.length + 3 - ls) % 256]) (c3.length + 1) =
      some (c3.length + 3 - ls) := by
    unfold readShortAt
    rw [List.get?_append_right (by simp), List.get?_append_right (by simp)]
    simp only [List.length_append, List.length_cons, List.length_nil]
    have h1 : c3.length + 1 - (c3.length + 1) = 0 := by omega
    have h2 : c3.length + 1 + 1 - (c3.length + 1) = 1 := by omega
    rw [h1, h2]
    simp only [List.get?]
    have : (c3.length + 3 - ls) / 256 % 256 * 256 + (c3.length + 3 - ls) % 256 =
        c3.length + 3 - ls := by omega
    rw [this]
  refine ⟨?_, hrs, ?_, ?_, ?_, hemit, hrl, ?_, ?_⟩
  · simp only [patchJump, hjv]
    exact decide_eq_false (by omega)
  · unfold disasmJumpTarget
    rw [ho, hlc2]
    push_cast
    omega
  · intro st fr fd hfr hip hffd hcode
    have hra : readShortAt fd.chunk.code fr.ip = some rest.length := by
      rw [hcode, hip]; exact hrs
    simp only [exec, execJump, readShortSt_of hfr hffd hra]
    unfold bumpIp
    rw [curFrame_withFrame _ hfr]
    dsimp only
    rw [withFrame_withFrame]
    have hfin : fr.ip + 2 + rest.length = ((emitJump code₀ opJ).1 ++ rest).length := by omega
    rw [hfin]
  · intro st fr fd v hfr hip hffd hcode hpeek hv
    have hra : readShortAt fd.chunk.code fr.ip = some rest.length := by
      rw [hcode, hip]; exact hrs
    simp only [exec, execJumpIfFalse, readShortSt_of hfr hffd hra]
    have hpk : peekV (withFrame st { fr with ip := fr.ip + 2 }) 0 = some v := hpeek
    simp only [hpk, hv]
    unfold bumpIp
    rw [curFrame_withFrame _ hfr]
    dsimp only
    rw [withFrame_withFrame]
    have hfin : fr.ip + 2 + rest.length = ((emitJump code₀ opJ).1 ++ rest).length := by omega
    rw [hfin]
    simp
  · unfold disasmJumpTarget
    push_cast
    omega
  · intro st fr fd hfr hip hffd hcode
    have hra : readShortAt fd.chunk.code fr.ip = some (c3.length + 3 - ls) := by
      rw [hcode, hip]; exact hrl
    simp only [exec, execLoop, readShortSt_of hfr hffd hra]
    rw [curFrame_withFrame _ hfr]
    dsimp only
    rw [if_pos (by omega : c3.length + 3 - ls ≤ fr.ip + 2)]
    rw [withFrame_withFrame]
    have hfin : fr.ip + 2 - (c3.length + 3 - ls) = ls := by omega
    rw [hfin]

theorem C8_jump_encoding_round_trip_witness :
    (([4] : List Nat).length < 65535 ∧ (0 : Nat) ≤ ([2] : List Nat).length + 1 ∧
     ([2] : List Nat).length + 3 - 0 < 65536) ∧
    ((patchJump ((emitJump [1] 23).1 ++ [4]) (emitJump [1] 23).2).2 = false ∧
     readShortAt (patchJump ((emitJump [1] 23).1 ++ [4]) (emitJump [1] 23).2).1
       (emitJump [1] 23).2 = some ([4] : List Nat).length ∧
     disasmJumpTarget ((emitJump [1] 23).2 - 1) 1 ([4] : List Nat).length =
       (((emitJump [1] 23).1 ++ [4]).length : Int) ∧
     (∀ (st : VMState Int) (fr : Frame) (fd : FuncData Int),
       curFrame st = some fr → fr.ip = (emitJump [1] 23).2 →
       frameFuncData st fr = some fd →
       fd.chunk.code = (patchJump ((emitJump [1] 23).1 ++ [4]) (emitJump [1] 23).2).1 →
       exec nmInt Op.JUMP st =
         .ok (withFrame st ⟨fr.closureId, ((emitJump [1] 23).1 ++ [4]).length, fr.slots⟩)) ∧
     (∀ (st : VMState Int) (fr : Frame) (fd : FuncData Int) (v : Value Int),
       curFrame st = some fr → fr.ip = (emitJump [1] 23).2 →
       frameFuncData st fr = some fd →
       fd.chunk.code = (patchJump ((emitJump [1] 23).1 ++ [4]) (emitJump [1] 23).2).1 →
       peekV st 0 = some v → v.isFalsey = true →
       exec nmInt Op.JUMP_IF_FALSE st =
         .ok (withFrame st ⟨fr.closureId, ((emitJump [1] 23).1 ++ [4]).length, fr.slots⟩)) ∧
     emitLoop [2] 25 0 = some (([2] ++ [25]) ++
       [(([2] : List Nat).length + 3 - 0) / 256 % 256, (([2] : List Nat).length + 3 - 0) % 256]) ∧
     readShortAt (([2] ++ [25]) ++
       [(([2] : List Nat).length + 3 - 0) / 256 % 256, (([2] : List Nat).length + 3 - 0) % 256])
       (([2] : List Nat).length + 1) = some (([2] : List Nat).length + 3 - 0) ∧
     disasmJumpTarget ([2] : List Nat).length (-1) (([2] : List Nat).length + 3 - 0) =
       ((0 : Nat) : Int) ∧
     (∀ (st : VMState Int) (fr : Frame) (fd : FuncData Int),
       curFrame st = some fr → fr.ip = ([2] : List Nat).length + 1 →
       frameFuncData st fr = some fd →
       fd.chunk.code = (([2] ++ [25]) ++
         [(([2] : List Nat).length + 3 - 0) / 256 % 256, (([2] : List Nat).length + 3 - 0) % 256]) →
       exec nmInt Op.LOOP st = .ok (withFrame st ⟨fr.closureId, 0, fr.slots⟩))) :=
  ⟨⟨by decide, by decide, by decide⟩,
   C8_jump_encoding_round_trip nmInt [1] [4] 23 [2] 25 0 (by decide) (by decide) (by decide)⟩

/-! ### Claim C4 (amended theorem) -/

theorem findStringAux_succ {α : Type} (strOf : Nat → Option (String × Nat))
    (entries : List (Entry α)) (capacity : Nat) (buffer : String) (hash i n : Nat) :
    findStringAux strOf entries capacity buffer hash i (n + 1) =
      match entries.get? i with
      | none => none
      | some e =>
        match e.key with
        | some k =>
          match strOf k with
          | none => none
          | some (chars, h) =>
            if h = hash then
              if chars = buffer then some (some k)
              else findStringAux strOf entries capacity buffer hash ((i + 1) % capacity) n
            else findStringAux strOf entries capacity buffer hash ((i + 1) % capacity) n
        | none =>
          if e.value.isNil then some none
          else findStringAux strOf entries capacity buffer hash ((i + 1) % capacity) n := rfl

/-- C4 (amended): interning through `StringObject::new` is idempotent.
From the empty intern table, interning any string `s` allocates one
object (heap slot 0) holding the NUL-terminated content and its FNV-1a
hash; interning `s` again returns that same object, allocating nothing
and leaving heap and table unchanged; and `find_string` with the content
and its hash returns that same object, which is the sole live table
entry. (What fails in the original claim is only the `from_owned` /
concatenation path — see the counterexample.) -/
theorem C4_intern_idempotent (s : String) :
    ∃ t1 : Table Int,
      stringNew s ([] : List (Obj Int)) Table.new = some (0, [strObj s], t1) ∧
      stringNew s [strObj s] t1 = some (0, [strObj s], t1) ∧
      Table.findString (strOfHeap ([strObj s] : List (Obj Int))) t1
        (nulTerm s) (hashString (nulTerm s)) = some (some 0) ∧
      t1.count = 1 := by
  have hm : hashString (nulTerm s) % 8 < 8 := Nat.mod_lt _ (by norm_num)
  have hnt : s.push (Char.ofNat 0) = nulTerm s := rfl
  have hso : Obj.str (nulTerm s) (hashString (nulTerm s)) = (strObj s : Obj Int) := rfl
  have hrep : (List.replicate 8 (⟨none, Value.nil⟩ : Entry Int)).get?
      (hashString (nulTerm s) % 8) = some ⟨none, Value.nil⟩ := by
    rw [List.get?_eq_getElem?, List.getElem?_replicate, if_pos hm]
  have hstr0 : strOfHeap ([strObj s] : List (Obj Int)) 0 =
      some (nulTerm s, hashString (nulTerm s)) := rfl
  have hhash0 : hashOfHeap ([strObj s] : List (Obj Int)) 0 =
      some (hashString (nulTerm s)) := rfl
  have haux : findEntrySlotAux (List.replicate 8 (⟨none, Value.nil⟩ : Entry Int)) 8 0
      (hashString (nulTerm s) % 8) none 8 = some (hashString (nulTerm s) % 8) := by
    rw [show (8 : Nat) = 7 + 1 from rfl, findEntrySlotAux_succ, hrep]
    rfl
  have hfes : findEntrySlot (hashOfHeap ([strObj s] : List (Obj Int)))
      (List.replicate 8 (⟨none, Value.nil⟩ : Entry Int)) 8 0 =
      some (hashString (nulTerm s) % 8) := by
    unfold findEntrySlot
    rw [if_neg (by norm_num), hhash0]
    exact haux
  have hsetNew : Table.set (hashOfHeap ([strObj s] : List (Obj Int)))
      (Table.new : Table Int) 0 Value.nil =
      some (true, ⟨(List.replicate 8 (⟨none, Value.nil⟩ : Entry Int)).set
        (hashString (nulTerm s) % 8) ⟨some 0, Value.nil⟩, 1, 8⟩) := by
    unfold Table.set
    rw [show (if 4 * ((Table.new : Table Int).count + 1) > 3 * (Table.new : Table Int).capacity
        then adjustCapacity (hashOfHeap ([strObj s] : List (Obj Int))) Table.new
          (if (Table.new : Table Int).capacity < 8 then 8
           else (Table.new : Table Int).capacity * 2)
        else some Table.new) =
      some ⟨List.replicate 8 (⟨none, Value.nil⟩ : Entry Int), 0, 8⟩ from rfl]
    dsimp only
    rw [hfes]
    dsimp only
    rw [hrep]
    rfl
  have hfind2 : Table.findString (strOfHeap ([strObj s] : List (Obj Int)))
      (⟨(List.replicate 8 (⟨none, Value.nil⟩ : Entry Int)).set
        (hashString (nulTerm s) % 8) ⟨some 0, Value.nil⟩, 1, 8⟩ : Table Int)
      (nulTerm s) (hashString (nulTerm s)) = some (some 0) := by
    unfold Table.findString
    rw [if_neg (by norm_num), if_neg (by norm_num)]
    dsimp only
    rw [show (8 : Nat) = 7 + 1 from rfl, findStringAux_succ,
      get?_set_self_of_lt _ _ _ (by simpa using hm)]
    dsimp only
    rw [hstr0]
    dsimp only
    rw [if_pos rfl, if_pos rfl]
  refine ⟨⟨(List.replicate 8 (⟨none, Value.nil⟩ : Entry Int)).set
      (hashString (nulTerm s) % 8) ⟨some 0, Value.nil⟩, 1, 8⟩, ?_, ?_, hfind2, rfl⟩
  · unfold stringNew
    simp only [hnt, List.nil_append, List.length_nil, hso]
    rw [show Table.findString (strOfHeap ([] : List (Obj Int))) (Table.new : Table Int)
        (nulTerm s) (hashString (nulTerm s)) = some none from rfl]
    dsimp only
    rw [hsetNew]
  · unfold stringNew
    simp only [hnt, hso]
    rw [hfind2]
